import Mathlib

/-!
# Terminal Snake (`src/snake.c`): a shallow embedding and its properties

The simulation core of the game is embedded as pure functions on an explicit
`GameState`.

Conventions of the embedding

* A C `int` is an `Int`; every `+`, `-`, `*` and `++`/`--` of the source is
  followed by `wrapInt`, the reduction to the 32-bit two's-complement range.
  Signed overflow is undefined in C, so theorems about arithmetic carry the
  hypothesis that the operands stay in range.  `/` on `int` is `Int.tdiv`
  (truncation toward zero).
* A C array is its map from indices to values.  `positions[WIDTH * HEIGHT]`
  is a `Nat → Position`, the two grids are `Nat → Nat → Char` (row, then
  column).  An index outside the array is outside the C semantics; theorems
  about code that touches `positions[i]` carry the bound on `i`.
* `rand()` is an explicit argument `r : Nat`, the value it returns.
* Terminal output is the list of operations sent to the terminal; `Terminal`
  gives these operations their effect on a cursor and a screen.
* `ReachableVia guard` is the set of states of a game, with `moveSnake`
  applied only to states that satisfy `guard`: `running` is the test of the
  loop of `main`, `insideArray` keeps the growth write inside `positions`,
  `always` puts no condition.
-/

namespace SnakeGame

/-! ## Constants -/

/-- Grid width, `#define WIDTH 40`. -/
def WIDTH : Nat := 40

/-- Grid height, `#define HEIGHT 20`. -/
def HEIGHT : Nat := 20

/-- Length of the snake at the start, `#define INITIAL_SNAKE_LENGTH 3`. -/
def INITIAL_SNAKE_LENGTH : Int := 3

/-- Food items per speed-up, `#define SPEED_INCREASE_INTERVAL 3`. -/
def SPEED_INCREASE_INTERVAL : Int := 3

/-- Percentage of the speed-up, `#define SPEED_INCREASE_PERCENT 5`. -/
def SPEED_INCREASE_PERCENT : Int := 5

/-- Cell content `' '`. -/
def EMPTY : Char := ' '

/-- Cell content `'o'`. -/
def SNAKE_BODY : Char := 'o'

/-- Cell content `'@'`. -/
def SNAKE_HEAD : Char := '@'

/-- Cell content `'*'`. -/
def FOOD : Char := '*'

/-- Cell content `'#'`. -/
def WALL : Char := '#'

/-! ## Machine integers -/

/-- Smallest value of an `int`. -/
def INT_MIN : Int := -2147483648

/-- Largest value of an `int`. -/
def INT_MAX : Int := 2147483647

/-- Reduction of an integer to the range of a 32-bit `int`. -/
def wrapInt (v : Int) : Int := (v + 2147483648) % 4294967296 - 2147483648

/-- Number of values of an `unsigned long` (LP64). -/
def ULONG_MOD : Nat := 18446744073709551616

/-- Subtraction of two `unsigned long` values. -/
def ulongSub (a b : Nat) : Nat := (a % ULONG_MOD + (ULONG_MOD - b % ULONG_MOD)) % ULONG_MOD

/-- Conversion of an `int` to `unsigned long`. -/
def intToUlong (v : Int) : Nat := (v % (ULONG_MOD : Int)).toNat

/-! ## Data model -/

/-- The `Direction` enumeration. -/
inductive Direction where
  | UP
  | DOWN
  | LEFT
  | RIGHT
  deriving DecidableEq, Repr

/-- The `Position` structure. -/
structure Position where
  x : Int
  y : Int
  deriving DecidableEq, Repr

/-- A grid `char [HEIGHT][WIDTH]`, indexed by row and column. -/
abbrev Grid := Nat → Nat → Char

/-- The `Snake` structure. -/
structure Snake where
  positions : Nat → Position
  length : Int
  direction : Direction
  pending_direction : Direction
  direction_changed : Bool

/-- The `GameState` structure. -/
structure GameState where
  current_grid : Grid
  previous_grid : Grid
  snake : Snake
  food : Position
  score : Int
  prev_score : Int
  game_over : Bool
  base_speed_h : Int
  base_speed_v : Int
  current_speed_h : Int
  current_speed_v : Int
  food_eaten_since_speedup : Int
  difficulty_level : Int

/-! ## Food placement -/

/-- The innermost loop of `generateFood`: `is_empty` for the cell `(x, y)`,
false as soon as a segment `i < length` lies on the cell. -/
def cellIsEmpty (game : GameState) (x y : Nat) : Bool :=
  (List.range game.snake.length.toNat).all fun i =>
    !(decide ((game.snake.positions i).x = (x : Int)) &&
      decide ((game.snake.positions i).y = (y : Int)))

/-- The `x` loop of `generateFood` for one row `y`, appending to `empty_cells`. -/
def scanRow (game : GameState) (empty_cells : List Position) (y : Nat) : List Position :=
  (List.range' 1 (WIDTH - 2)).foldl
    (fun cells x => if cellIsEmpty game x y then cells ++ [⟨(x : Int), (y : Int)⟩] else cells)
    empty_cells

/-- The two nested loops of `generateFood`: the array `empty_cells` with its
`num_empty_cells` entries. -/
def emptyCells (game : GameState) : List Position :=
  (List.range' 1 (HEIGHT - 2)).foldl (scanRow game) []

/-- The function `generateFood`; `r` is the value of `rand()`.  The index
`random_index` is below `num_empty_cells`, so the default of `getD` is never
returned. -/
def generateFood (game : GameState) (r : Nat) : GameState :=
  let empty_cells := emptyCells game
  let num_empty_cells := empty_cells.length
  if num_empty_cells > 0 then
    let random_index := r % num_empty_cells
    { game with food := empty_cells.getD random_index game.food }
  else game

/-! ## Collision -/

/-- The function `checkCollision`. -/
def checkCollision (game : GameState) : Bool :=
  let head_x := (game.snake.positions 0).x
  let head_y := (game.snake.positions 0).y
  if head_x ≤ 0 ∨ head_x ≥ (WIDTH : Int) - 1 ∨ head_y ≤ 0 ∨ head_y ≥ (HEIGHT : Int) - 1 then
    true
  else
    (List.range' 1 (game.snake.length.toNat - 1)).any fun i =>
      decide (head_x = (game.snake.positions i).x) &&
        decide (head_y = (game.snake.positions i).y)

/-! ## Difficulty -/

/-- The function `increaseGameSpeed`. -/
def increaseGameSpeed (game : GameState) : GameState :=
  let difficulty_level := wrapInt (game.difficulty_level + 1)
  let base_speed := Int.tdiv (wrapInt (game.base_speed_h + game.base_speed_v)) 2
  let new_speed :=
    Int.tdiv
      (wrapInt (base_speed *
        wrapInt (100 - wrapInt (wrapInt (difficulty_level - 1) * SPEED_INCREASE_PERCENT))))
      100
  let current_speed_h := if new_speed < 40 then 40 else new_speed
  let current_speed_v := if new_speed < 40 then 40 else new_speed
  { game with
    difficulty_level := difficulty_level
    current_speed_h := current_speed_h
    current_speed_v := current_speed_v
    food_eaten_since_speedup := 0 }

/-! ## Movement -/

/-- The body loop of `moveSnake`, `for (i = start; i > 0; i--)
positions[i] = positions[i - 1]`. -/
def shiftBody (positions : Nat → Position) : Nat → (Nat → Position)
  | 0 => positions
  | i + 1 => shiftBody (Function.update positions (i + 1) (positions i)) i

/-- The `switch` of `moveSnake` on the direction, applied to `positions[0]`. -/
def stepHead (d : Direction) (head : Position) : Position :=
  match d with
  | Direction.UP => { head with y := wrapInt (head.y - 1) }
  | Direction.DOWN => { head with y := wrapInt (head.y + 1) }
  | Direction.LEFT => { head with x := wrapInt (head.x - 1) }
  | Direction.RIGHT => { head with x := wrapInt (head.x + 1) }

/-- The first half of `moveSnake`, up to the test for food: the direction is
taken from `pending_direction`, the lock is cleared, the body is shifted and
the head is moved. -/
def advanceSnake (game : GameState) : GameState :=
  let direction := game.snake.pending_direction
  let shifted := shiftBody game.snake.positions (wrapInt (game.snake.length - 1)).toNat
  let positions := Function.update shifted 0 (stepHead direction (shifted 0))
  { game with
    snake :=
      { game.snake with
        direction := direction
        direction_changed := false
        positions := positions } }

/-- The branch of `moveSnake` taken when the head is on the food; `last_tail`
is the tail position stored before the shift. -/
def eatFood (game : GameState) (last_tail : Position) (r : Nat) : GameState :=
  let length := wrapInt (game.snake.length + 1)
  let grown : GameState :=
    { game with
      snake :=
        { game.snake with
          length := length
          positions := Function.update game.snake.positions (wrapInt (length - 1)).toNat last_tail }
      score := wrapInt (game.score + 1)
      food_eaten_since_speedup := wrapInt (game.food_eaten_since_speedup + 1) }
  let sped :=
    if grown.food_eaten_since_speedup ≥ SPEED_INCREASE_INTERVAL then increaseGameSpeed grown
    else grown
  generateFood sped r

/-- The function `moveSnake`; `r` is the value `rand()` returns if food is
generated. -/
def moveSnake (game : GameState) (r : Nat) : GameState :=
  let last_tail := game.snake.positions (wrapInt (game.snake.length - 1)).toNat
  let moved := advanceSnake game
  let fed :=
    if (moved.snake.positions 0).x = moved.food.x ∧ (moved.snake.positions 0).y = moved.food.y then
      eatFood moved last_tail r
    else moved
  { fed with game_over := checkCollision fed }

/-! ## Input -/

/-- The function `toupper` of the C locale. -/
def toupper (c : Char) : Char := c.toUpper

/-- The function `handleInput`. -/
def handleInput (game : GameState) (input : Char) : GameState :=
  let input := toupper input
  if !game.snake.direction_changed then
    if input = 'W' then
      if game.snake.direction ≠ Direction.DOWN ∧ game.snake.direction ≠ Direction.UP then
        { game with
          snake :=
            { game.snake with pending_direction := Direction.UP, direction_changed := true } }
      else game
    else if input = 'A' then
      if game.snake.direction ≠ Direction.RIGHT ∧ game.snake.direction ≠ Direction.LEFT then
        { game with
          snake :=
            { game.snake with pending_direction := Direction.LEFT, direction_changed := true } }
      else game
    else if input = 'S' then
      if game.snake.direction ≠ Direction.UP ∧ game.snake.direction ≠ Direction.DOWN then
        { game with
          snake :=
            { game.snake with pending_direction := Direction.DOWN, direction_changed := true } }
      else game
    else if input = 'D' then
      if game.snake.direction ≠ Direction.LEFT ∧ game.snake.direction ≠ Direction.RIGHT then
        { game with
          snake :=
            { game.snake with pending_direction := Direction.RIGHT, direction_changed := true } }
      else game
    else if input = 'Q' then
      { game with game_over := true }
    else game
  else game

/-! ## Grid rebuild -/

/-- The assignment `grid[y][x] = c`. -/
def setCell (grid : Grid) (y x : Nat) (c : Char) : Grid :=
  fun y' x' => if y' = y ∧ x' = x then c else grid y' x'

/-- The assignment `grid[y][x] = c` for `int` indices.  Indices outside the
grid are outside the array; the model leaves the grid as it is. -/
def setCellInt (grid : Grid) (y x : Int) (c : Char) : Grid :=
  if 0 ≤ y ∧ y < (HEIGHT : Int) ∧ 0 ≤ x ∧ x < (WIDTH : Int) then setCell grid y.toNat x.toNat c
  else grid

/-- The loop of `updateGameState` that sets every cell to `EMPTY`. -/
def clearGrid (grid : Grid) : Grid :=
  (List.range HEIGHT).foldl
    (fun g y => (List.range WIDTH).foldl (fun g x => setCell g y x EMPTY) g) grid

/-- The two border loops of `updateGameState`. -/
def drawBorders (grid : Grid) : Grid :=
  let rows :=
    (List.range WIDTH).foldl (fun g x => setCell (setCell g 0 x WALL) (HEIGHT - 1) x WALL) grid
  (List.range HEIGHT).foldl (fun g y => setCell (setCell g y 0 WALL) y (WIDTH - 1) WALL) rows

/-- The snake loop of `updateGameState`: segment `i` is drawn when it lies
inside the grid, the head as `SNAKE_HEAD`, the others as `SNAKE_BODY`. -/
def drawSnake (snake : Snake) (grid : Grid) : Grid :=
  (List.range snake.length.toNat).foldl
    (fun g i =>
      let x := (snake.positions i).x
      let y := (snake.positions i).y
      if x ≥ 0 ∧ x < (WIDTH : Int) ∧ y ≥ 0 ∧ y < (HEIGHT : Int) then
        setCell g y.toNat x.toNat (if i = 0 then SNAKE_HEAD else SNAKE_BODY)
      else g)
    grid

/-- The function `updateGameState`. -/
def updateGameState (game : GameState) : GameState :=
  let previous_grid := game.current_grid
  let grid := drawSnake game.snake (drawBorders (clearGrid game.current_grid))
  { game with
    previous_grid := previous_grid
    current_grid := setCellInt grid game.food.y game.food.x FOOD }

/-! ## Rendering -/

/-- The three ANSI colours of the renderer. -/
inductive Color where
  | RED
  | GREEN
  | YELLOW
  deriving DecidableEq, Repr

/-- One operation sent to the terminal. -/
inductive TermOp where
  /-- The call `moveCursor(y, x)`. -/
  | moveCursor (y x : Nat)
  /-- The status line `Score: %d | Level: %d`. -/
  | printStatus (score level : Int)
  /-- One grid character, coloured or plain. -/
  | putCell (color : Option Color) (c : Char)
  /-- The call `putchar('\n')`. -/
  | newline
  /-- The instructions line. -/
  | printControls
  deriving DecidableEq, Repr

/-- The `switch (cell)` of `renderGame`: the colour a cell is printed in. -/
def cellColor (cell : Char) : Option Color :=
  if cell = WALL then some Color.RED
  else if cell = FOOD then some Color.GREEN
  else if cell = SNAKE_HEAD ∨ cell = SNAKE_BODY then some Color.YELLOW
  else none

/-- The full redraw of `renderGame`. -/
def renderFull (game : GameState) : List TermOp :=
  TermOp.moveCursor 1 0 ::
    (List.range HEIGHT).flatMap fun y =>
      ((List.range WIDTH).map fun x =>
        TermOp.putCell (cellColor (game.current_grid y x)) (game.current_grid y x)) ++
        [TermOp.newline]

/-- The incremental redraw of `renderGame`. -/
def renderChanged (game : GameState) : List TermOp :=
  (List.range HEIGHT).flatMap fun y =>
    (List.range WIDTH).flatMap fun x =>
      if game.current_grid y x ≠ game.previous_grid y x then
        [TermOp.moveCursor (y + 1) x,
          TermOp.putCell (cellColor (game.current_grid y x)) (game.current_grid y x)]
      else []

/-- The function `renderGame`: the state it leaves and the operations it
sends to the terminal. -/
def renderGame (game : GameState) (force_full_render : Bool) : GameState × List TermOp :=
  let status := decide (game.score ≠ game.prev_score) || force_full_render
  let game1 := if status then { game with prev_score := game.score } else game
  let out1 :=
    if status then [TermOp.moveCursor 0 0, TermOp.printStatus game.score game.difficulty_level]
    else []
  let out2 := if force_full_render then renderFull game1 else renderChanged game1
  let out3 :=
    if force_full_render then [TermOp.moveCursor (HEIGHT + 1) 0, TermOp.printControls] else []
  (game1, out1 ++ out2 ++ out3)

/-! ## Start of a game -/

/-- The function `initializeGame`; `game` is the memory it is given and `r`
the value of `rand()`. -/
def initializeGame (game : GameState) (r : Nat) : GameState :=
  let blank (grid : Grid) : Grid :=
    (List.range HEIGHT).foldl
      (fun g y => (List.range WIDTH).foldl (fun g x => setCell g y x EMPTY) g) grid
  let length := INITIAL_SNAKE_LENGTH
  let middle_x : Int := (WIDTH : Int) / 2
  let middle_y : Int := (HEIGHT : Int) / 2
  let positions :=
    (List.range length.toNat).foldl
      (fun p i => Function.update p i ⟨wrapInt (middle_x - (i : Int)), middle_y⟩)
      game.snake.positions
  let game1 : GameState :=
    { score := 0
      prev_score := 0
      game_over := false
      food_eaten_since_speedup := 0
      difficulty_level := 1
      base_speed_h := 160
      base_speed_v := 160
      current_speed_h := 160
      current_speed_v := 160
      current_grid := blank game.current_grid
      previous_grid := blank game.previous_grid
      snake :=
        { length := length
          direction := Direction.RIGHT
          pending_direction := Direction.RIGHT
          direction_changed := false
          positions := positions }
      food := game.food }
  updateGameState (generateFood game1 r)

/-! ## Game loop -/

/-- One iteration of the `while (!game.game_over)` loop of `main`: `key` is
the key read when `kbhit()` holds, `current_time` the value of
`getCurrentTimeMs()`, `r` the value of `rand()`.  The result is the state,
the new `last_move_time` and the terminal output. -/
def gameLoopBody (game : GameState) (last_move_time : Nat) (key : Option Char)
    (current_time : Nat) (r : Nat) : GameState × Nat × List TermOp :=
  let game1 :=
    match key with
    | some input => handleInput game input
    | none => game
  let speed :=
    if game1.snake.direction = Direction.LEFT ∨ game1.snake.direction = Direction.RIGHT then
      game1.current_speed_h
    else game1.current_speed_v
  if ulongSub current_time last_move_time ≥ intToUlong speed then
    let game2 := moveSnake game1 r
    let game3 := updateGameState game2
    let rendered := renderGame game3 false
    (rendered.1, current_time, rendered.2)
  else (game1, last_move_time, [])

/-! ## Sample states -/

/-- The snake `initializeGame` builds: three segments `(20,10)`, `(19,10)`,
`(18,10)`, moving right. -/
def startSnake : Snake :=
  { positions := fun i => ⟨20 - (i : Int), 10⟩
    length := 3
    direction := Direction.RIGHT
    pending_direction := Direction.RIGHT
    direction_changed := false }

/-- A game at its start, with the food at `(5, 5)`. -/
def startGame : GameState :=
  { current_grid := fun _ _ => EMPTY
    previous_grid := fun _ _ => EMPTY
    snake := startSnake
    food := ⟨5, 5⟩
    score := 0
    prev_score := 0
    game_over := false
    base_speed_h := 160
    base_speed_v := 160
    current_speed_h := 160
    current_speed_v := 160
    food_eaten_since_speedup := 0
    difficulty_level := 1 }

/-- The start snake one cell from the left wall, about to move left. -/
def wallGame : GameState :=
  { startGame with
    snake :=
      { startSnake with
        positions := fun i => ⟨1 + (i : Int), 10⟩
        direction := Direction.LEFT
        pending_direction := Direction.LEFT } }

/-- A game at its start with the food at `(21, 10)`, right in front of the
head. -/
def foodAheadGame : GameState := { startGame with food := ⟨21, 10⟩ }

/-- A board whose interior is full: the snake winds through all
`38 * 18 = 684` interior cells, row by row in alternating directions, and the
food is where it was last eaten, under the head. -/
def fullBoardGame : GameState :=
  { startGame with
    snake :=
      { startSnake with
        positions := fun i =>
          ⟨if (i / 38) % 2 = 0 then ((1 + i % 38 : Nat) : Int) else ((38 - i % 38 : Nat) : Int),
            ((1 + i / 38 : Nat) : Int)⟩
        length := 684 }
    food := ⟨1, 1⟩ }

/-- Number of calls of `handleInput`, over the keys of `keys` in order, that
change `pending_direction`. -/
def pendingChanges (game : GameState) : List Char → Nat
  | [] => 0
  | input :: keys =>
    (if (handleInput game input).snake.pending_direction ≠ game.snake.pending_direction then 1
      else 0) + pendingChanges (handleInput game input) keys

/-- A value is in the range of an `int`. -/
def inIntRange (v : Int) : Prop := INT_MIN ≤ v ∧ v ≤ INT_MAX

instance (v : Int) : Decidable (inIntRange v) :=
  inferInstanceAs (Decidable (INT_MIN ≤ v ∧ v ≤ INT_MAX))

/-- No `int` operation of `increaseGameSpeed` overflows on `game`: the new
level, the percentage, the sum of the base intervals and the product are all
in range. -/
def speedUpInRange (game : GameState) : Prop :=
  inIntRange game.difficulty_level ∧
  inIntRange (game.difficulty_level + 1) ∧
  inIntRange (game.difficulty_level * SPEED_INCREASE_PERCENT) ∧
  inIntRange (100 - game.difficulty_level * SPEED_INCREASE_PERCENT) ∧
  inIntRange (game.base_speed_h + game.base_speed_v) ∧
  inIntRange (Int.tdiv (game.base_speed_h + game.base_speed_v) 2 *
    (100 - game.difficulty_level * SPEED_INCREASE_PERCENT))

instance (game : GameState) : Decidable (speedUpInRange game) :=
  inferInstanceAs (Decidable (_ ∧ _ ∧ _ ∧ _ ∧ _ ∧ _))

/-- A game in which two food items were eaten since the last speed-up and
the third lies right in front of the head. -/
def thirdFoodGame : GameState :=
  { startGame with
    snake := { startSnake with length := 5 }
    food := ⟨21, 10⟩
    score := 2
    food_eaten_since_speedup := 2 }

/-! ## Counting and sample states for the renderer -/

/-- An operation that writes one grid cell. -/
def isCellWrite : TermOp → Bool
  | TermOp.putCell _ _ => true
  | _ => false

/-- Number of grid cells an output writes. -/
def cellsWritten (ops : List TermOp) : Nat := ops.countP isCellWrite

/-- The state of the first tick of a game, after its rebuild: the grid of the
start is in `previous_grid`, the grid with the snake one cell further right
in `current_grid`. -/
def tickedGame : GameState := updateGameState (moveSnake (updateGameState startGame) 0)

/-- The state after the snake of `wallGame` has run into the left wall: the
head is at `(0, 10)`, the food at `(5, 5)`. -/
def crashedGame : GameState := moveSnake wallGame 0

/-! ## The terminal

The model of the ANSI terminal the renderer writes to: a cursor and the
characters on screen, rows and columns counted from 0.  `moveCursor(y, x)`
sends `ESC[y+1;x+1H` and so puts the cursor in row `y`, column `x`; a printed
character is stored under the cursor, which moves one column to the right
(colour sequences take no room); `'\n'` moves the cursor to the start of the
next row.  Lines are taken to be long enough for the text printed on them. -/

/-- The terminal: cursor row and column, and the characters on screen. -/
structure Terminal where
  row : Nat
  col : Nat
  screen : Nat → Nat → Char

/-- One character printed at the cursor. -/
def Terminal.putChar (t : Terminal) (c : Char) : Terminal :=
  { t with screen := setCell t.screen t.row t.col c, col := t.col + 1 }

/-- A text without line breaks printed at the cursor. -/
def Terminal.putText (t : Terminal) (text : List Char) : Terminal :=
  text.foldl Terminal.putChar t

/-- The text of the status line, `"Score: %d | Level: %d         "`. -/
def statusText (score level : Int) : List Char :=
  ("Score: " ++ toString score ++ " | Level: " ++ toString level ++ "         ").toList

/-- The text of the instructions line. -/
def controlsText : List Char :=
  "Controls: W/^ (Up), A/< (Left), S/v (Down), D/> (Right), Q (Quit)".toList

/-- The effect of one operation on the terminal. -/
def Terminal.exec (t : Terminal) : TermOp → Terminal
  | TermOp.moveCursor y x => { t with row := y, col := x }
  | TermOp.printStatus score level => t.putText (statusText score level)
  | TermOp.putCell _ c => t.putChar c
  | TermOp.newline => { t with row := t.row + 1, col := 0 }
  | TermOp.printControls => t.putText controlsText

/-- The effect of an output on the terminal. -/
def Terminal.run (t : Terminal) (ops : List TermOp) : Terminal :=
  ops.foldl Terminal.exec t

/-- The grid area of the terminal, rows `1 .. HEIGHT` and columns
`0 .. WIDTH - 1`, shows `grid`. -/
def Terminal.showsGrid (t : Terminal) (grid : Grid) : Prop :=
  ∀ y x : Nat, y < HEIGHT → x < WIDTH → t.screen (y + 1) x = grid y x

/-- The grid cells an output writes on the terminal, in order: row, column
and character of each `putCell`. -/
def cellWrites (t : Terminal) : List TermOp → List (Nat × Nat × Char)
  | [] => []
  | TermOp.putCell color c :: ops =>
    (t.row, t.col, c) :: cellWrites (t.exec (TermOp.putCell color c)) ops
  | op :: ops => cellWrites (t.exec op) ops

/-- The cells in which `current_grid` differs from `previous_grid`, in
row-major order, each with its terminal row `y + 1`, its column `x` and its
new character. -/
def changedCells (game : GameState) : List (Nat × Nat × Char) :=
  (List.range HEIGHT).flatMap fun y =>
    (List.range WIDTH).flatMap fun x =>
      if game.current_grid y x ≠ game.previous_grid y x then [(y + 1, x, game.current_grid y x)]
      else []

/-- A terminal that shows the grid of `game` below an empty status line. -/
def terminalOf (game : GameState) : Terminal :=
  { row := 0
    col := 0
    screen := fun r c => if r = 0 then EMPTY else game.current_grid (r - 1) c }

/-! ## Food placement, as the specification words it -/

/-- The interior cells in row-major order: `y` from 1 to `HEIGHT - 2`, then
`x` from 1 to `WIDTH - 2`. -/
def interiorCells : List Position :=
  (List.range' 1 (HEIGHT - 2)).flatMap fun y =>
    (List.range' 1 (WIDTH - 2)).map fun (x : Nat) => (⟨(x : Int), (y : Int)⟩ : Position)

/-- The cell `p` is the position of a snake segment with index below
`snake.length`. -/
def isSegment (game : GameState) (p : Position) : Bool :=
  (List.range game.snake.length.toNat).any fun i => decide (game.snake.positions i = p)

/-- The free interior cells: the interior cells, in row-major order, that are
not the position of a snake segment. -/
def freeCells (game : GameState) : List Position :=
  interiorCells.filter fun p => !isSegment game p

/-- The reference for `generateFood`: with `C` the list of free interior
cells, the food becomes `C[r mod |C|]` when `C` is not empty, and the state
is left as it is when `C` is empty. -/
def generateFoodReference (game : GameState) (r : Nat) : GameState :=
  if h : 0 < (freeCells game).length then
    { game with food := (freeCells game).get ⟨r % (freeCells game).length, Nat.mod_lt r h⟩ }
  else game

/-! ## Reachable states -/

/-- The direction opposite to `d`. -/
def Direction.reverse : Direction → Direction
  | Direction.UP => Direction.DOWN
  | Direction.DOWN => Direction.UP
  | Direction.LEFT => Direction.RIGHT
  | Direction.RIGHT => Direction.LEFT

/-- The states a game can be in.  It starts with `initializeGame` on any
memory and any draw; then `handleInput` is applied with any key,
`updateGameState` and `renderGame` are applied, and `moveSnake` is applied
with any draw, alone or inside an iteration of the loop of `main`, to a
state that satisfies `guard`. -/
inductive ReachableVia (guard : GameState → Prop) : GameState → Prop
  | init (memory : GameState) (r : Nat) : ReachableVia guard (initializeGame memory r)
  | input (s : GameState) (input : Char) :
    ReachableVia guard s → ReachableVia guard (handleInput s input)
  | move (s : GameState) (r : Nat) :
    ReachableVia guard s → guard s → ReachableVia guard (moveSnake s r)
  | update (s : GameState) : ReachableVia guard s → ReachableVia guard (updateGameState s)
  | render (s : GameState) (force : Bool) :
    ReachableVia guard s → ReachableVia guard (renderGame s force).1
  | iteration (s : GameState) (last_move_time : Nat) (key : Option Char) (current_time r : Nat) :
    ReachableVia guard s → guard s →
      ReachableVia guard (gameLoopBody s last_move_time key current_time r).1

/-- The guard of the loop of `main`: the game is not over. -/
def running (s : GameState) : Prop := s.game_over = false

/-- The guard that holds of every state. -/
def always (_s : GameState) : Prop := True

/-- The guard under which the growth write `positions[length]` of `moveSnake`
is inside the array. -/
def insideArray (s : GameState) : Prop := s.snake.length < ((WIDTH * HEIGHT : Nat) : Int)

/-- The position `p` is strictly inside the border ring. -/
def isInterior (p : Position) : Prop :=
  1 ≤ p.x ∧ p.x ≤ (WIDTH : Int) - 2 ∧ 1 ≤ p.y ∧ p.y ≤ (HEIGHT : Int) - 2

instance (p : Position) : Decidable (isInterior p) :=
  inferInstanceAs (Decidable (_ ∧ _ ∧ _ ∧ _))

/-- The segments of the snake lie strictly inside the border ring, on
pairwise different cells. -/
def snakeIntact (s : GameState) : Prop :=
  (∀ i : Nat, (i : Int) < s.snake.length → isInterior (s.snake.positions i)) ∧
  ∀ i j : Nat, (i : Int) < s.snake.length → (j : Int) < s.snake.length →
    s.snake.positions i = s.snake.positions j → i = j

/-- The draw for which `generateFood` on `game` chooses the free cell `p`:
the index of `p` in `empty_cells`. -/
def drawFor (game : GameState) (p : Position) : Nat := (emptyCells game).indexOf p

/-- The snake of `s` lies in row 10 with its head at column `head_x`, moves
right and has `len` segments. -/
def rowSnake (s : GameState) (head_x len : Int) : Prop :=
  s.snake.length = len ∧ s.snake.pending_direction = Direction.RIGHT ∧
  ∀ i : Nat, (i : Int) < len → s.snake.positions i = ⟨head_x - (i : Int), 10⟩

/-- A game started with the draw that puts the food at `(21, 10)`, right in
front of the head. -/
def firstFoodGame : GameState :=
  initializeGame startGame (drawFor (initializeGame startGame 0) ⟨21, 10⟩)

/-- The game `firstFoodGame` after the move that eats the food, with the draw
that puts the next food at `(22, 10)`. -/
def oneFoodGame : GameState :=
  moveSnake firstFoodGame (drawFor (moveSnake firstFoodGame 0) ⟨22, 10⟩)

/-- The game `oneFoodGame` after the move that eats the second food, with the
draw that puts the third food at `(23, 10)`: two food items were eaten since
the last speed-up and the third lies right in front of the head. -/
def twoFoodGame : GameState :=
  moveSnake oneFoodGame (drawFor (moveSnake oneFoodGame 0) ⟨23, 10⟩)

/-! ## Auxiliary facts -/

theorem wrapInt_of_range {v : Int} (h1 : -2147483648 ≤ v) (h2 : v ≤ 2147483647) :
    wrapInt v = v := by
  unfold wrapInt
  omega

theorem shiftBody_apply (n : Nat) :
    ∀ (p : Nat → Position) (i : Nat),
      shiftBody p n i = if 1 ≤ i ∧ i ≤ n then p (i - 1) else p i := by
  induction n with
  | zero =>
    intro p i
    have h : ¬ (1 ≤ i ∧ i ≤ 0) := by omega
    rw [if_neg h]
    rfl
  | succ n ih =>
    intro p i
    rw [shiftBody, ih]
    by_cases h1 : 1 ≤ i ∧ i ≤ n
    · have h2 : 1 ≤ i ∧ i ≤ n + 1 := by omega
      have h3 : i - 1 ≠ n + 1 := by omega
      rw [if_pos h1, if_pos h2, Function.update_noteq h3]
    · rw [if_neg h1]
      by_cases h4 : i = n + 1
      · subst h4
        have h2 : 1 ≤ n + 1 ∧ n + 1 ≤ n + 1 := by omega
        rw [if_pos h2, Function.update_same]
        rfl
      · have h2 : ¬ (1 ≤ i ∧ i ≤ n + 1) := by omega
        rw [if_neg h2, Function.update_noteq h4]

theorem generateFood_snake (game : GameState) (r : Nat) :
    (generateFood game r).snake = game.snake := by
  unfold generateFood
  simp only
  split <;> rfl

theorem generateFood_score (game : GameState) (r : Nat) :
    (generateFood game r).score = game.score := by
  unfold generateFood
  simp only
  split <;> rfl

theorem advanceSnake_head (game : GameState) :
    (advanceSnake game).snake.positions 0 =
      stepHead game.snake.pending_direction (game.snake.positions 0) := by
  simp [advanceSnake, shiftBody_apply]

theorem advanceSnake_body (game : GameState) (i : Nat) (hi : 1 ≤ i) :
    (advanceSnake game).snake.positions i =
      if i ≤ (wrapInt (game.snake.length - 1)).toNat then game.snake.positions (i - 1)
      else game.snake.positions i := by
  have h0 : i ≠ 0 := by omega
  simp [advanceSnake, shiftBody_apply, Function.update_noteq h0, hi]

theorem checkCollision_congr {g1 g2 : GameState} (h : g1.snake = g2.snake) :
    checkCollision g1 = checkCollision g2 := by
  unfold checkCollision
  rw [h]

theorem eatFood_snake (game : GameState) (t : Position) (r : Nat) :
    (eatFood game t r).snake =
      { game.snake with
        length := wrapInt (game.snake.length + 1)
        positions :=
          Function.update game.snake.positions
            (wrapInt (wrapInt (game.snake.length + 1) - 1)).toNat t } := by
  unfold eatFood
  simp only [generateFood_snake]
  split <;> rfl

theorem eatFood_score (game : GameState) (t : Position) (r : Nat) :
    (eatFood game t r).score = wrapInt (game.score + 1) := by
  unfold eatFood
  simp only [generateFood_score]
  split <;> rfl

theorem position_eq_iff (p q : Position) : p = q ↔ p.x = q.x ∧ p.y = q.y := by
  cases p
  cases q
  simp

/-- The value of `checkCollision`: border test, then the scan of the body. -/
theorem checkCollision_spec (game : GameState) :
    checkCollision game = true ↔
      ((game.snake.positions 0).x ≤ 0 ∨ (game.snake.positions 0).x ≥ (WIDTH : Int) - 1 ∨
        (game.snake.positions 0).y ≤ 0 ∨ (game.snake.positions 0).y ≥ (HEIGHT : Int) - 1) ∨
      ∃ i : Nat, 1 ≤ i ∧ (i : Int) < game.snake.length ∧
        game.snake.positions 0 = game.snake.positions i := by
  unfold checkCollision
  by_cases hb : (game.snake.positions 0).x ≤ 0 ∨ (game.snake.positions 0).x ≥ (WIDTH : Int) - 1 ∨
      (game.snake.positions 0).y ≤ 0 ∨ (game.snake.positions 0).y ≥ (HEIGHT : Int) - 1
  · simp only [if_pos hb, true_iff]
    exact Or.inl hb
  · simp only [if_neg hb, List.any_eq_true, Bool.and_eq_true, decide_eq_true_eq,
      List.mem_range']
    constructor
    · rintro ⟨i, ⟨k, hk, rfl⟩, hxy⟩
      exact Or.inr ⟨1 + 1 * k, by omega, by omega, (position_eq_iff _ _).2 hxy⟩
    · rintro (h | ⟨i, h1, h2, hp⟩)
      · exact absurd h hb
      · exact ⟨i, ⟨i - 1, by omega, by omega⟩, (position_eq_iff _ _).1 hp⟩

/-- The function `moveSnake`, split on whether the moved head is on the food. -/
theorem moveSnake_eq (game : GameState) (r : Nat) :
    moveSnake game r =
      if (advanceSnake game).snake.positions 0 = game.food then
        { eatFood (advanceSnake game)
            (game.snake.positions (wrapInt (game.snake.length - 1)).toNat) r with
          game_over :=
            checkCollision
              (eatFood (advanceSnake game)
                (game.snake.positions (wrapInt (game.snake.length - 1)).toNat) r) }
      else { advanceSnake game with game_over := checkCollision (advanceSnake game) } := by
  have hfood : (advanceSnake game).food = game.food := rfl
  have hiff : (((advanceSnake game).snake.positions 0).x = (advanceSnake game).food.x ∧
      ((advanceSnake game).snake.positions 0).y = (advanceSnake game).food.y) ↔
      (advanceSnake game).snake.positions 0 = game.food := by
    rw [hfood]
    exact (position_eq_iff _ _).symm
  by_cases h : (advanceSnake game).snake.positions 0 = game.food
  · simp only [moveSnake, if_pos (hiff.2 h), if_pos h]
  · simp only [moveSnake, if_neg (fun h2 => h (hiff.1 h2)), if_neg h]

theorem moveSnake_snake (game : GameState) (r : Nat) :
    (moveSnake game r).snake =
      if (advanceSnake game).snake.positions 0 = game.food then
        { (advanceSnake game).snake with
          length := wrapInt (game.snake.length + 1)
          positions :=
            Function.update (advanceSnake game).snake.positions
              (wrapInt (wrapInt (game.snake.length + 1) - 1)).toNat
              (game.snake.positions (wrapInt (game.snake.length - 1)).toNat) }
      else (advanceSnake game).snake := by
  have hlen : (advanceSnake game).snake.length = game.snake.length := rfl
  rw [moveSnake_eq]
  split
  · simp only [eatFood_snake, hlen]
  · rfl

theorem moveSnake_score (game : GameState) (r : Nat) :
    (moveSnake game r).score =
      if (advanceSnake game).snake.positions 0 = game.food then wrapInt (game.score + 1)
      else game.score := by
  rw [moveSnake_eq]
  split
  · simp only [eatFood_score]
    rfl
  · rfl

theorem moveSnake_game_over_eq (game : GameState) (r : Nat) :
    (moveSnake game r).game_over = checkCollision (moveSnake game r) := by
  rw [moveSnake_eq]
  split
  · exact checkCollision_congr rfl
  · exact checkCollision_congr rfl

/-- The head after `moveSnake`, for a snake whose length is inside the array. -/
theorem moveSnake_head (game : GameState) (r : Nat)
    (hlen : 1 ≤ game.snake.length) (hcap : game.snake.length < 800) :
    (moveSnake game r).snake.positions 0 =
      stepHead game.snake.pending_direction (game.snake.positions 0) := by
  have hw2 : wrapInt (game.snake.length + 1) = game.snake.length + 1 :=
    wrapInt_of_range (by omega) (by omega)
  have hw3 : wrapInt (game.snake.length + 1 - 1) = game.snake.length :=
    (wrapInt_of_range (by omega) (by omega)).trans (by omega)
  have hn0 : game.snake.length.toNat ≠ 0 := by omega
  rw [moveSnake_snake]
  split
  · rw [hw2, hw3]
    dsimp only
    rw [Function.update_noteq (Ne.symm hn0), advanceSnake_head]
  · exact advanceSnake_head game

/-- The segments behind the head after `moveSnake`. -/
theorem moveSnake_body (game : GameState) (r : Nat)
    (hlen : 1 ≤ game.snake.length) (hcap : game.snake.length < 800)
    (i : Nat) (hi1 : 1 ≤ i) (hi2 : (i : Int) < game.snake.length) :
    (moveSnake game r).snake.positions i = game.snake.positions (i - 1) := by
  have hw1 : wrapInt (game.snake.length - 1) = game.snake.length - 1 :=
    wrapInt_of_range (by omega) (by omega)
  have hw2 : wrapInt (game.snake.length + 1) = game.snake.length + 1 :=
    wrapInt_of_range (by omega) (by omega)
  have hw3 : wrapInt (game.snake.length + 1 - 1) = game.snake.length :=
    (wrapInt_of_range (by omega) (by omega)).trans (by omega)
  have hle : i ≤ (wrapInt (game.snake.length - 1)).toNat := by
    rw [hw1]
    omega
  have hne : i ≠ game.snake.length.toNat := by omega
  rw [moveSnake_snake]
  split
  · rw [hw2, hw3]
    dsimp only
    rw [Function.update_noteq hne, advanceSnake_body game i hi1, if_pos hle]
  · rw [advanceSnake_body game i hi1, if_pos hle]

/-- The length after `moveSnake`. -/
theorem moveSnake_length (game : GameState) (r : Nat)
    (hlen : 1 ≤ game.snake.length) (hcap : game.snake.length < 800) :
    (moveSnake game r).snake.length =
      if stepHead game.snake.pending_direction (game.snake.positions 0) = game.food then
        game.snake.length + 1
      else game.snake.length := by
  have hw2 : wrapInt (game.snake.length + 1) = game.snake.length + 1 :=
    wrapInt_of_range (by omega) (by omega)
  rw [moveSnake_snake, advanceSnake_head]
  split
  · exact hw2
  · rfl

theorem width_height_cap : ((WIDTH * HEIGHT : Nat) : Int) = 800 := by decide

/-! ## Movement (C1) -/

/-- C1: for a snake of length `n` with `1 ≤ n < WIDTH * HEIGHT` whose head
coordinates can be stepped without leaving the `int` range, `moveSnake` makes
`pending_direction` the active direction, puts the head one cell further in
that direction, gives segment `i` the old position of segment `i - 1` for
`1 ≤ i < n`, and, when the new head is on the food, has length `n + 1` with
the old tail as segment `n`.  The snake `(20,10),(19,10),(18,10)` moving
right with no food at `(21,10)` becomes `(21,10),(20,10),(19,10)`. -/
theorem moveSnake_shifts_and_steps (game : GameState) (r : Nat)
    (hlen : 1 ≤ game.snake.length) (hcap : game.snake.length < ((WIDTH * HEIGHT : Nat) : Int))
    (hx : INT_MIN < (game.snake.positions 0).x ∧ (game.snake.positions 0).x < INT_MAX)
    (hy : INT_MIN < (game.snake.positions 0).y ∧ (game.snake.positions 0).y < INT_MAX) :
    (moveSnake game r).snake.direction = game.snake.pending_direction ∧
    (moveSnake game r).snake.positions 0 =
      (match game.snake.pending_direction with
        | Direction.UP => ⟨(game.snake.positions 0).x, (game.snake.positions 0).y - 1⟩
        | Direction.DOWN => ⟨(game.snake.positions 0).x, (game.snake.positions 0).y + 1⟩
        | Direction.LEFT => ⟨(game.snake.positions 0).x - 1, (game.snake.positions 0).y⟩
        | Direction.RIGHT => ⟨(game.snake.positions 0).x + 1, (game.snake.positions 0).y⟩) ∧
    (∀ i : Nat, 1 ≤ i → (i : Int) < game.snake.length →
      (moveSnake game r).snake.positions i = game.snake.positions (i - 1)) ∧
    ((moveSnake game r).snake.positions 0 = game.food →
      (moveSnake game r).snake.length = game.snake.length + 1 ∧
      (moveSnake game r).snake.positions game.snake.length.toNat =
        game.snake.positions (game.snake.length.toNat - 1)) ∧
    (game.snake.length = 3 → game.snake.positions 0 = ⟨20, 10⟩ →
      game.snake.positions 1 = ⟨19, 10⟩ → game.snake.positions 2 = ⟨18, 10⟩ →
      game.snake.pending_direction = Direction.RIGHT → game.food ≠ ⟨21, 10⟩ →
      (moveSnake game r).snake.length = 3 ∧
      (moveSnake game r).snake.positions 0 = ⟨21, 10⟩ ∧
      (moveSnake game r).snake.positions 1 = ⟨20, 10⟩ ∧
      (moveSnake game r).snake.positions 2 = ⟨19, 10⟩) := by
  rw [width_height_cap] at hcap
  simp only [INT_MIN, INT_MAX] at hx hy
  have hw1 : wrapInt (game.snake.length - 1) = game.snake.length - 1 :=
    wrapInt_of_range (by omega) (by omega)
  have hw2 : wrapInt (game.snake.length + 1) = game.snake.length + 1 :=
    wrapInt_of_range (by omega) (by omega)
  have hw3 : wrapInt (game.snake.length + 1 - 1) = game.snake.length :=
    (wrapInt_of_range (by omega) (by omega)).trans (by omega)
  have hhead := moveSnake_head game r hlen hcap
  have hbody := moveSnake_body game r hlen hcap
  have hstep : stepHead game.snake.pending_direction (game.snake.positions 0) =
      (match game.snake.pending_direction with
        | Direction.UP => ⟨(game.snake.positions 0).x, (game.snake.positions 0).y - 1⟩
        | Direction.DOWN => ⟨(game.snake.positions 0).x, (game.snake.positions 0).y + 1⟩
        | Direction.LEFT => ⟨(game.snake.positions 0).x - 1, (game.snake.positions 0).y⟩
        | Direction.RIGHT => ⟨(game.snake.positions 0).x + 1, (game.snake.positions 0).y⟩) := by
    cases game.snake.pending_direction <;>
      simp only [stepHead] <;>
      rw [wrapInt_of_range (by omega) (by omega)]
  have hgrow : (moveSnake game r).snake.positions 0 = game.food →
      (moveSnake game r).snake.length = game.snake.length + 1 ∧
      (moveSnake game r).snake.positions game.snake.length.toNat =
        game.snake.positions (game.snake.length.toNat - 1) := by
    intro hfood
    rw [hhead, ← advanceSnake_head] at hfood
    have hidx : (game.snake.length - 1).toNat = game.snake.length.toNat - 1 := by omega
    rw [moveSnake_snake, if_pos hfood, hw1, hw2, hw3, hidx]
    dsimp only
    rw [Function.update_same]
    exact ⟨rfl, rfl⟩
  refine ⟨?_, hhead.trans hstep, hbody, hgrow, ?_⟩
  · rw [moveSnake_snake]
    split <;> rfl
  · intro h3 p0 p1 p2 hd hf
    have hh : (moveSnake game r).snake.positions 0 = ⟨21, 10⟩ := by
      rw [hhead, hd, p0]
      rfl
    refine ⟨?_, hh, ?_, ?_⟩
    · have hne : ¬ (stepHead game.snake.pending_direction (game.snake.positions 0) =
          game.food) := by
        rw [← hhead, hh]
        exact fun h => hf h.symm
      rw [moveSnake_length game r hlen hcap, if_neg hne]
      exact h3
    · rw [hbody 1 (by omega) (by omega), p0]
    · rw [hbody 2 (by omega) (by omega), p1]

/-- Witness of C1: the snake at the start of a game, one move to the right. -/
theorem moveSnake_shifts_and_steps_witness :
    (moveSnake startGame 0).snake.direction = Direction.RIGHT ∧
    (moveSnake startGame 0).snake.length = 3 ∧
    (moveSnake startGame 0).snake.positions 0 = ⟨21, 10⟩ ∧
    (moveSnake startGame 0).snake.positions 1 = ⟨20, 10⟩ ∧
    (moveSnake startGame 0).snake.positions 2 = ⟨19, 10⟩ :=
  have h := moveSnake_shifts_and_steps startGame 0 (by decide) (by decide) (by decide)
    (by decide)
  ⟨h.1, h.2.2.2.2 rfl rfl rfl rfl rfl (by decide)⟩

/-! ## Collision (C2, C3) -/

/-- C2: `checkCollision` is true exactly when the head is on or beyond the
border ring (`x ≤ 0`, `x ≥ WIDTH - 1`, `y ≤ 0` or `y ≥ HEIGHT - 1`) or on the
position of a segment `i` with `1 ≤ i < snake.length`. -/
theorem checkCollision_iff (game : GameState) :
    checkCollision game = true ↔
      ((game.snake.positions 0).x ≤ 0 ∨ (game.snake.positions 0).x ≥ (WIDTH : Int) - 1 ∨
        (game.snake.positions 0).y ≤ 0 ∨ (game.snake.positions 0).y ≥ (HEIGHT : Int) - 1) ∨
      ∃ i : Nat, 1 ≤ i ∧ (i : Int) < game.snake.length ∧
        game.snake.positions 0 = game.snake.positions i :=
  checkCollision_spec game

/-- C3: for a snake of length at least 1, `game_over` after `moveSnake` is the
value of `checkCollision` on the moved snake: it is true exactly when the
moved head is on or beyond the border ring or on another segment.  A head at
`(1,10)` moving left (the length below the array capacity, so that a growth
write stays inside `positions`) ends at `(0,10)` with `game_over` true. -/
theorem moveSnake_game_over (game : GameState) (r : Nat) (hlen : 1 ≤ game.snake.length) :
    (moveSnake game r).game_over = checkCollision (moveSnake game r) ∧
    ((moveSnake game r).game_over = true ↔
      (((moveSnake game r).snake.positions 0).x ≤ 0 ∨
        ((moveSnake game r).snake.positions 0).x ≥ (WIDTH : Int) - 1 ∨
        ((moveSnake game r).snake.positions 0).y ≤ 0 ∨
        ((moveSnake game r).snake.positions 0).y ≥ (HEIGHT : Int) - 1) ∨
      ∃ i : Nat, 1 ≤ i ∧ (i : Int) < (moveSnake game r).snake.length ∧
        (moveSnake game r).snake.positions 0 = (moveSnake game r).snake.positions i) ∧
    (game.snake.length < ((WIDTH * HEIGHT : Nat) : Int) →
      game.snake.positions 0 = ⟨1, 10⟩ → game.snake.pending_direction = Direction.LEFT →
      (moveSnake game r).snake.positions 0 = ⟨0, 10⟩ ∧ (moveSnake game r).game_over = true) := by
  have hgo := moveSnake_game_over_eq game r
  refine ⟨hgo, ?_, ?_⟩
  · rw [hgo]
    exact checkCollision_spec (moveSnake game r)
  · intro hcap hp hd
    rw [width_height_cap] at hcap
    have hh : (moveSnake game r).snake.positions 0 = ⟨0, 10⟩ := by
      rw [moveSnake_head game r hlen hcap, hp, hd]
      rfl
    refine ⟨hh, ?_⟩
    rw [hgo, checkCollision_spec, hh]
    exact Or.inl (Or.inl (le_refl 0))

/-- Witness of C3: the start snake moved to `(1,10)` and turned left. -/
theorem moveSnake_game_over_witness :
    (moveSnake wallGame 0).snake.positions 0 = ⟨0, 10⟩ ∧
      (moveSnake wallGame 0).game_over = true :=
  (moveSnake_game_over wallGame 0 (by decide)).2.2 (by decide) rfl rfl

/-! ## Growth (C4) -/

/-- C4: for a snake of length at least 1 (below the array capacity, with a
score that can be incremented), `moveSnake` never decreases the length: when
the moved head is on the food held before the move, length and score both go
up by exactly 1, and otherwise both are unchanged. -/
theorem moveSnake_length_score (game : GameState) (r : Nat)
    (hlen : 1 ≤ game.snake.length) (hcap : game.snake.length < ((WIDTH * HEIGHT : Nat) : Int))
    (hscore : INT_MIN ≤ game.score ∧ game.score < INT_MAX) :
    game.snake.length ≤ (moveSnake game r).snake.length ∧
    (moveSnake game r).snake.positions 0 =
      stepHead game.snake.pending_direction (game.snake.positions 0) ∧
    ((moveSnake game r).snake.positions 0 = game.food →
      (moveSnake game r).snake.length = game.snake.length + 1 ∧
      (moveSnake game r).score = game.score + 1) ∧
    ((moveSnake game r).snake.positions 0 ≠ game.food →
      (moveSnake game r).snake.length = game.snake.length ∧
      (moveSnake game r).score = game.score) := by
  rw [width_height_cap] at hcap
  simp only [INT_MIN, INT_MAX] at hscore
  have hhead := moveSnake_head game r hlen hcap
  have hl := moveSnake_length game r hlen hcap
  have hs := moveSnake_score game r
  rw [advanceSnake_head] at hs
  rw [hhead]
  refine ⟨?_, rfl, ?_, ?_⟩
  · rw [hl]
    split <;> omega
  · intro h
    rw [hl, hs, if_pos h, if_pos h]
    exact ⟨rfl, wrapInt_of_range (by omega) (by omega)⟩
  · intro h
    rw [hl, hs, if_neg h, if_neg h]
    exact ⟨rfl, rfl⟩

/-- Witness of C4: the start snake with the food right in front of it. -/
theorem moveSnake_length_score_witness :
    (moveSnake foodAheadGame 0).snake.length = 4 ∧ (moveSnake foodAheadGame 0).score = 1 :=
  have h := moveSnake_length_score foodAheadGame 0 (by decide) (by decide) (by decide)
  h.2.2.1 (h.2.1.trans (by decide))

/-! ## Food placement (C5) -/

theorem foldl_append_filter {α β : Type} (p : α → Bool) (f : α → β) (l : List α) :
    ∀ acc : List β,
      l.foldl (fun cells x => if p x then cells ++ [f x] else cells) acc =
        acc ++ (l.filter p).map f := by
  induction l with
  | nil => intro acc; simp
  | cons a l ih =>
    intro acc
    rw [List.foldl_cons, ih]
    by_cases h : p a = true
    · simp [h]
    · simp [h]

theorem foldl_append_flatMap {α β : Type} (g : α → List β) (l : List α) :
    ∀ acc : List β, l.foldl (fun cells y => cells ++ g y) acc = acc ++ l.flatMap g := by
  induction l with
  | nil => intro acc; simp
  | cons a l ih =>
    intro acc
    rw [List.foldl_cons, ih]
    simp

/-- The cells one row contributes to `empty_cells`. -/
theorem scanRow_eq (game : GameState) (acc : List Position) (y : Nat) :
    scanRow game acc y =
      acc ++ ((List.range' 1 (WIDTH - 2)).filter fun x => cellIsEmpty game x y).map
        fun (x : Nat) => (⟨(x : Int), (y : Int)⟩ : Position) := by
  unfold scanRow
  exact foldl_append_filter (fun x => cellIsEmpty game x y) _ _ acc

/-- The array `empty_cells` as a list in row-major order. -/
theorem emptyCells_eq (game : GameState) :
    emptyCells game =
      (List.range' 1 (HEIGHT - 2)).flatMap fun y =>
        ((List.range' 1 (WIDTH - 2)).filter fun x => cellIsEmpty game x y).map
          fun (x : Nat) => (⟨(x : Int), (y : Int)⟩ : Position) := by
  unfold emptyCells
  have h : scanRow game = fun acc y =>
      acc ++ ((List.range' 1 (WIDTH - 2)).filter fun x => cellIsEmpty game x y).map
        fun (x : Nat) => (⟨(x : Int), (y : Int)⟩ : Position) := by
    funext acc y
    exact scanRow_eq game acc y
  rw [h, foldl_append_flatMap]
  simp

theorem cellIsEmpty_iff (game : GameState) (x y : Nat) :
    cellIsEmpty game x y = true ↔
      ∀ i : Nat, (i : Int) < game.snake.length →
        game.snake.positions i ≠ ⟨(x : Int), (y : Int)⟩ := by
  unfold cellIsEmpty
  simp only [List.all_eq_true, List.mem_range, Bool.not_eq_true', Bool.and_eq_false_imp,
    decide_eq_true_eq, decide_eq_false_iff_not]
  constructor
  · intro h i hi hp
    exact h i (by omega) (by rw [hp]) (by rw [hp])
  · intro h i hi hx hy
    exact h i (by omega) ((position_eq_iff _ _).2 ⟨hx, hy⟩)

theorem mem_emptyCells (game : GameState) (p : Position) :
    p ∈ emptyCells game ↔
      ∃ x y : Nat, 1 ≤ x ∧ x ≤ WIDTH - 2 ∧ 1 ≤ y ∧ y ≤ HEIGHT - 2 ∧
        p = ⟨(x : Int), (y : Int)⟩ ∧
        ∀ i : Nat, (i : Int) < game.snake.length →
          game.snake.positions i ≠ ⟨(x : Int), (y : Int)⟩ := by
  rw [emptyCells_eq]
  simp only [List.mem_flatMap, List.mem_map, List.mem_filter, List.mem_range', cellIsEmpty_iff]
  constructor
  · rintro ⟨y, ⟨ky, hky, rfl⟩, x, ⟨⟨kx, hkx, rfl⟩, hfree⟩, rfl⟩
    exact ⟨1 + 1 * kx, 1 + 1 * ky, by omega, by omega, by omega, by omega, rfl, hfree⟩
  · rintro ⟨x, y, hx1, hx2, hy1, hy2, rfl, hfree⟩
    exact ⟨y, ⟨y - 1, by omega, by omega⟩, x, ⟨⟨x - 1, by omega, by omega⟩, hfree⟩, rfl⟩

/-- The food after `generateFood` when `empty_cells` is not empty. -/
theorem generateFood_food_mem (game : GameState) (r : Nat) (h : emptyCells game ≠ []) :
    (generateFood game r).food ∈ emptyCells game := by
  have hpos : 0 < (emptyCells game).length := List.length_pos.2 h
  have hlt : r % (emptyCells game).length < (emptyCells game).length := Nat.mod_lt _ hpos
  unfold generateFood
  simp only [gt_iff_lt, if_pos hpos]
  rw [List.getD_eq_getElem _ _ hlt]
  exact List.getElem_mem _

/-- C5, amended: when some interior cell is free of the snake, the food
`generateFood` places is strictly inside the border ring and differs from the
position of every segment below `snake.length`. -/
theorem generateFood_food_free (game : GameState) (r : Nat)
    (hfree : ∃ x y : Nat, 1 ≤ x ∧ x ≤ WIDTH - 2 ∧ 1 ≤ y ∧ y ≤ HEIGHT - 2 ∧
      ∀ i : Nat, (i : Int) < game.snake.length →
        game.snake.positions i ≠ ⟨(x : Int), (y : Int)⟩) :
    (1 ≤ (generateFood game r).food.x ∧ (generateFood game r).food.x ≤ (WIDTH : Int) - 2 ∧
      1 ≤ (generateFood game r).food.y ∧ (generateFood game r).food.y ≤ (HEIGHT : Int) - 2) ∧
    ∀ i : Nat, (i : Int) < (generateFood game r).snake.length →
      (generateFood game r).food ≠ (generateFood game r).snake.positions i := by
  obtain ⟨x0, y0, hx1, hx2, hy1, hy2, hfree0⟩ := hfree
  have hne : emptyCells game ≠ [] :=
    List.ne_nil_of_mem ((mem_emptyCells game _).2 ⟨x0, y0, hx1, hx2, hy1, hy2, rfl, hfree0⟩)
  obtain ⟨x, y, h1, h2, h3, h4, hp, hcell⟩ :=
    (mem_emptyCells game _).1 (generateFood_food_mem game r hne)
  rw [generateFood_snake, hp]
  simp only [WIDTH, HEIGHT] at h2 h4 ⊢
  refine ⟨⟨by omega, by omega, by omega, by omega⟩, ?_⟩
  intro i hi heq
  exact hcell i hi heq.symm

/-- Witness of C5, amended: at the start of a game the cell `(1, 1)` is free. -/
theorem generateFood_food_free_witness :
    (1 ≤ (generateFood startGame 7).food.x ∧
      (generateFood startGame 7).food.x ≤ (WIDTH : Int) - 2 ∧
      1 ≤ (generateFood startGame 7).food.y ∧
      (generateFood startGame 7).food.y ≤ (HEIGHT : Int) - 2) ∧
    ∀ i : Nat, (i : Int) < (generateFood startGame 7).snake.length →
      (generateFood startGame 7).food ≠ (generateFood startGame 7).snake.positions i :=
  generateFood_food_free startGame 7
    ⟨1, 1, by decide, by decide, by decide, by decide, fun i _ h =>
      absurd (show (10 : Int) = 1 from congrArg Position.y h) (by decide)⟩

theorem emptyCells_fullBoardGame : emptyCells fullBoardGame = [] := by
  apply List.eq_nil_iff_forall_not_mem.2
  intro p hp
  obtain ⟨x, y, h1, h2, h3, h4, -, hcell⟩ := (mem_emptyCells fullBoardGame p).1 hp
  simp only [WIDTH, HEIGHT] at h2 h4
  have hlen : fullBoardGame.snake.length = 684 := rfl
  by_cases hpar : (y - 1) % 2 = 0
  · apply hcell ((y - 1) * 38 + (x - 1)) (by rw [hlen]; omega)
    have hd : ((y - 1) * 38 + (x - 1)) / 38 = y - 1 := by omega
    have hm : ((y - 1) * 38 + (x - 1)) % 38 = x - 1 := by omega
    show (⟨_, _⟩ : Position) = _
    rw [hd, hm, if_pos hpar]
    congr 2 <;> omega
  · apply hcell ((y - 1) * 38 + (38 - x)) (by rw [hlen]; omega)
    have hd : ((y - 1) * 38 + (38 - x)) / 38 = y - 1 := by omega
    have hm : ((y - 1) * 38 + (38 - x)) % 38 = 38 - x := by omega
    show (⟨_, _⟩ : Position) = _
    rw [hd, hm, if_neg hpar]
    congr 2 <;> omega

/-- C5 as stated fails: on the full board `generateFood` leaves the food where
it was, under the head of the snake. -/
theorem generateFood_full_board :
    ¬ ((1 ≤ (generateFood fullBoardGame 0).food.x ∧
        (generateFood fullBoardGame 0).food.x ≤ (WIDTH : Int) - 2 ∧
        1 ≤ (generateFood fullBoardGame 0).food.y ∧
        (generateFood fullBoardGame 0).food.y ≤ (HEIGHT : Int) - 2) ∧
      ∀ i : Nat, (i : Int) < (generateFood fullBoardGame 0).snake.length →
        (generateFood fullBoardGame 0).food ≠ (generateFood fullBoardGame 0).snake.positions i) := by
  have hsame : generateFood fullBoardGame 0 = fullBoardGame := by
    unfold generateFood
    simp only [emptyCells_fullBoardGame, List.length_nil, gt_iff_lt, lt_self_iff_false, if_false]
  rw [hsame]
  rintro ⟨-, h⟩
  exact h 0 (by decide) (by decide)

/-! ## Input (C6, C8, C9) -/

/-- While the lock is set `handleInput` does nothing. -/
theorem handleInput_locked (game : GameState) (input : Char)
    (h : game.snake.direction_changed = true) : handleInput game input = game := by
  unfold handleInput
  simp [h]

/-- The three things `handleInput` can do: nothing, set `game_over`, or store
a new pending direction and set the lock. -/
theorem handleInput_cases (game : GameState) (input : Char) :
    handleInput game input = game ∨
    handleInput game input = { game with game_over := true } ∨
    ∃ d : Direction,
      handleInput game input =
        { game with
          snake := { game.snake with pending_direction := d, direction_changed := true } } := by
  unfold handleInput
  simp only
  split_ifs
  all_goals first
    | exact Or.inl rfl
    | exact Or.inr (Or.inl rfl)
    | exact Or.inr (Or.inr ⟨_, rfl⟩)

/-- C6 fails on the code: after an accepted turn in the same tick (`w`, which
sets the lock) the quit key, in either case, leaves `game_over` false. -/
theorem handleInput_quit_ignored_when_locked :
    (handleInput startGame 'w').snake.direction_changed = true ∧
    (handleInput startGame 'w').game_over = false ∧
    (handleInput (handleInput startGame 'w') 'q').game_over = false ∧
    (handleInput (handleInput startGame 'w') 'Q').game_over = false := by
  decide

/-- C8: when the key asks for the reverse of the active direction (`S` for
up, `W` for down, `D` for left, `A` for right, in either case), `handleInput`
leaves `pending_direction` and the lock `direction_changed` as they were. -/
theorem handleInput_reverse_ignored (game : GameState) (input : Char)
    (h : (game.snake.direction = Direction.UP ∧ (input = 'S' ∨ input = 's')) ∨
      (game.snake.direction = Direction.DOWN ∧ (input = 'W' ∨ input = 'w')) ∨
      (game.snake.direction = Direction.LEFT ∧ (input = 'D' ∨ input = 'd')) ∨
      (game.snake.direction = Direction.RIGHT ∧ (input = 'A' ∨ input = 'a'))) :
    (handleInput game input).snake.pending_direction = game.snake.pending_direction ∧
    (handleInput game input).snake.direction_changed = game.snake.direction_changed := by
  have hS : toupper 'S' = 'S' := by decide
  have hs : toupper 's' = 'S' := by decide
  have hW : toupper 'W' = 'W' := by decide
  have hw : toupper 'w' = 'W' := by decide
  have hD : toupper 'D' = 'D' := by decide
  have hd : toupper 'd' = 'D' := by decide
  have hA : toupper 'A' = 'A' := by decide
  have ha : toupper 'a' = 'A' := by decide
  have hsame : handleInput game input = game := by
    unfold handleInput
    rcases h with ⟨hdir, rfl | rfl⟩ | ⟨hdir, rfl | rfl⟩ | ⟨hdir, rfl | rfl⟩ | ⟨hdir, rfl | rfl⟩ <;>
      simp [hdir, hS, hs, hW, hw, hD, hd, hA, ha]
  rw [hsame]
  exact ⟨rfl, rfl⟩

/-- Witness of C8: moving right, the key `a` asks for left and is ignored. -/
theorem handleInput_reverse_ignored_witness :
    (handleInput startGame 'a').snake.pending_direction = Direction.RIGHT ∧
    (handleInput startGame 'a').snake.direction_changed = false :=
  handleInput_reverse_ignored startGame 'a' (Or.inr (Or.inr (Or.inr ⟨rfl, Or.inr rfl⟩)))

theorem pendingChanges_locked (keys : List Char) :
    ∀ game : GameState, game.snake.direction_changed = true → pendingChanges game keys = 0 := by
  induction keys with
  | nil => intro game _; rfl
  | cons input keys ih =>
    intro game h
    rw [pendingChanges, handleInput_locked game input h, ih game h]
    simp

theorem handleInput_change_locks (game : GameState) (input : Char)
    (h : (handleInput game input).snake.pending_direction ≠ game.snake.pending_direction) :
    (handleInput game input).snake.direction_changed = true := by
  rcases handleInput_cases game input with h1 | h1 | ⟨d, h1⟩
  · rw [h1] at h
    exact absurd rfl h
  · rw [h1] at h
    exact absurd rfl h
  · rw [h1]

theorem pendingChanges_le_one (keys : List Char) :
    ∀ game : GameState, pendingChanges game keys ≤ 1 := by
  induction keys with
  | nil => intro game; exact Nat.zero_le 1
  | cons input keys ih =>
    intro game
    rw [pendingChanges]
    by_cases h : (handleInput game input).snake.pending_direction ≠ game.snake.pending_direction
    · rw [if_pos h, pendingChanges_locked keys _ (handleInput_change_locks game input h)]
    · rw [if_neg h]
      have := ih (handleInput game input)
      omega

theorem moveSnake_unlocks (game : GameState) (r : Nat) :
    (moveSnake game r).snake.direction_changed = false := by
  rw [moveSnake_snake]
  split <;> rfl

/-- C9: between two calls of `moveSnake`, at most one call of `handleInput`
changes `pending_direction`, whatever the keys: `moveSnake` clears the lock, a
call that changes `pending_direction` sets it, and while it is set
`handleInput` changes neither `pending_direction` nor the lock. -/
theorem handleInput_one_change_per_tick (game : GameState) (r : Nat) (keys : List Char) :
    pendingChanges (moveSnake game r) keys ≤ 1 ∧
    (moveSnake game r).snake.direction_changed = false ∧
    (∀ (g : GameState) (input : Char),
      (handleInput g input).snake.pending_direction ≠ g.snake.pending_direction →
        (handleInput g input).snake.direction_changed = true) ∧
    (∀ (g : GameState) (input : Char), g.snake.direction_changed = true →
      (handleInput g input).snake.pending_direction = g.snake.pending_direction ∧
      (handleInput g input).snake.direction_changed = true) := by
  refine ⟨pendingChanges_le_one keys _, moveSnake_unlocks game r, handleInput_change_locks, ?_⟩
  intro g input h
  rw [handleInput_locked g input h]
  exact ⟨rfl, h⟩

/-- Witness of C9: after a move, of the keys `w`, `s`, `a`, `d` only the first
changes the pending direction. -/
theorem handleInput_one_change_per_tick_witness :
    pendingChanges (moveSnake startGame 0) ['w', 's', 'a', 'd'] ≤ 1 ∧
    (handleInput (handleInput (moveSnake startGame 0) 'w') 's').snake.pending_direction =
      Direction.UP :=
  have h := handleInput_one_change_per_tick startGame 0 ['w', 's', 'a', 'd']
  ⟨h.1, ((h.2.2.2 (handleInput (moveSnake startGame 0) 'w') 's' (by decide)).1).trans
    (by decide)⟩

/-! ## The game loop (C7) -/

/-- C7 fails on the code: at the start of a game, with the tick interval of
160 ms elapsed, an iteration that reads the quit key still runs `moveSnake`
(the head goes from `(20,10)` to `(21,10)` and `last_move_time` becomes the
clock reading), and `moveSnake` overwrites `game_over` with the collision test,
so the iteration ends with `game_over` false.  With the lock set by an
accepted `w`, the quit key is dropped even when no tick is due. -/
theorem gameLoopBody_quit_overwritten :
    startGame.game_over = false ∧
    (handleInput startGame 'q').game_over = true ∧
    (gameLoopBody startGame 0 (some 'q') 160 0).1.game_over = false ∧
    (gameLoopBody startGame 0 (some 'q') 160 0).1.snake.positions 0 = ⟨21, 10⟩ ∧
    (gameLoopBody startGame 0 (some 'q') 160 0).2.1 = 160 ∧
    (gameLoopBody (handleInput startGame 'w') 0 (some 'q') 100 0).1.game_over = false := by
  decide

/-! ## Difficulty (C10) -/

theorem generateFood_frame (game : GameState) (r : Nat) :
    generateFood game r = { game with food := (generateFood game r).food } := by
  unfold generateFood
  simp only
  split <;> rfl

/-- The difficulty fields after a `moveSnake` that eats. -/
theorem moveSnake_eat_difficulty (game : GameState) (r : Nat)
    (hate : stepHead game.snake.pending_direction (game.snake.positions 0) = game.food) :
    ((moveSnake game r).difficulty_level, (moveSnake game r).current_speed_h,
        (moveSnake game r).current_speed_v, (moveSnake game r).food_eaten_since_speedup) =
      if wrapInt (game.food_eaten_since_speedup + 1) ≥ SPEED_INCREASE_INTERVAL then
        ((increaseGameSpeed game).difficulty_level, (increaseGameSpeed game).current_speed_h,
          (increaseGameSpeed game).current_speed_v, 0)
      else
        (game.difficulty_level, game.current_speed_h, game.current_speed_v,
          wrapInt (game.food_eaten_since_speedup + 1)) := by
  rw [← advanceSnake_head] at hate
  have hadv : (advanceSnake game).food_eaten_since_speedup = game.food_eaten_since_speedup := rfl
  rw [moveSnake_eq, if_pos hate]
  unfold eatFood
  simp only [hadv]
  rw [generateFood_frame]
  by_cases hc : wrapInt (game.food_eaten_since_speedup + 1) ≥ SPEED_INCREASE_INTERVAL
  · simp only [if_pos hc]
    rfl
  · simp only [if_neg hc]
    rfl

/-- C10: on a state with `food_eaten_since_speedup = 2` whose `int`
arithmetic does not overflow, a `moveSnake` that eats raises
`difficulty_level` by 1, sets both intervals to
`max 40 (avgBase * (100 - 5 * (level - 1)) / 100)` for the new level, with
`avgBase = (base_speed_h + base_speed_v) / 2` and truncating division, and
resets the counter to 0; with the counter below 2 it changes neither the
level nor the intervals.  With level 1 and base 160 on both axes the third
food gives level 2 and interval 152. -/
theorem moveSnake_speed_up (game : GameState) (r : Nat)
    (hate : stepHead game.snake.pending_direction (game.snake.positions 0) = game.food) :
    (game.food_eaten_since_speedup = 2 → speedUpInRange game →
      (moveSnake game r).difficulty_level = game.difficulty_level + 1 ∧
      (moveSnake game r).current_speed_h =
        max 40 (Int.tdiv (Int.tdiv (game.base_speed_h + game.base_speed_v) 2 *
          (100 - 5 * ((moveSnake game r).difficulty_level - 1))) 100) ∧
      (moveSnake game r).current_speed_v =
        max 40 (Int.tdiv (Int.tdiv (game.base_speed_h + game.base_speed_v) 2 *
          (100 - 5 * ((moveSnake game r).difficulty_level - 1))) 100) ∧
      (moveSnake game r).food_eaten_since_speedup = 0) ∧
    (game.food_eaten_since_speedup < 2 → INT_MIN ≤ game.food_eaten_since_speedup →
      (moveSnake game r).difficulty_level = game.difficulty_level ∧
      (moveSnake game r).current_speed_h = game.current_speed_h ∧
      (moveSnake game r).current_speed_v = game.current_speed_v) ∧
    (game.food_eaten_since_speedup = 2 → game.difficulty_level = 1 →
      game.base_speed_h = 160 → game.base_speed_v = 160 →
      (moveSnake game r).difficulty_level = 2 ∧
      (moveSnake game r).current_speed_h = 152 ∧
      (moveSnake game r).current_speed_v = 152) := by
  have hfields := moveSnake_eat_difficulty game r hate
  simp only [Prod.ext_iff] at hfields
  refine ⟨?_, ?_, ?_⟩
  · intro hc hrange
    obtain ⟨h1, h2, h3, h4, h5, h6⟩ := hrange
    simp only [inIntRange, INT_MIN, INT_MAX, SPEED_INCREASE_PERCENT] at h1 h2 h3 h4 h5 h6
    have hthree : wrapInt (game.food_eaten_since_speedup + 1) ≥ SPEED_INCREASE_INTERVAL := by
      rw [hc]
      decide
    rw [if_pos hthree] at hfields
    obtain ⟨hl, hh, hv, hcnt⟩ := hfields
    have wl : wrapInt (game.difficulty_level + 1) = game.difficulty_level + 1 :=
      wrapInt_of_range (by omega) (by omega)
    have wl1 : wrapInt (game.difficulty_level + 1 - 1) = game.difficulty_level :=
      (wrapInt_of_range (by omega) (by omega)).trans (by omega)
    have wp : wrapInt (game.difficulty_level * 5) = game.difficulty_level * 5 :=
      wrapInt_of_range (by omega) (by omega)
    have wq : wrapInt (100 - game.difficulty_level * 5) = 100 - game.difficulty_level * 5 :=
      wrapInt_of_range (by omega) (by omega)
    have wb : wrapInt (game.base_speed_h + game.base_speed_v) =
        game.base_speed_h + game.base_speed_v := wrapInt_of_range h5.1 h5.2
    have wm : wrapInt (Int.tdiv (game.base_speed_h + game.base_speed_v) 2 *
        (100 - game.difficulty_level * 5)) =
        Int.tdiv (game.base_speed_h + game.base_speed_v) 2 *
          (100 - game.difficulty_level * 5) := wrapInt_of_range h6.1 h6.2
    have hlevel : (moveSnake game r).difficulty_level = game.difficulty_level + 1 := by
      rw [hl]
      exact wl
    have harg : 100 - 5 * ((moveSnake game r).difficulty_level - 1) =
        100 - game.difficulty_level * 5 := by
      rw [hlevel]
      omega
    have hspeed : (increaseGameSpeed game).current_speed_h =
        max 40 (Int.tdiv (Int.tdiv (game.base_speed_h + game.base_speed_v) 2 *
          (100 - game.difficulty_level * 5)) 100) := by
      simp only [increaseGameSpeed, SPEED_INCREASE_PERCENT, wl, wl1, wp, wq, wb, wm]
      split <;> omega
    have hspeedv : (increaseGameSpeed game).current_speed_v =
        (increaseGameSpeed game).current_speed_h := rfl
    refine ⟨hlevel, ?_, ?_, hcnt⟩
    · rw [hh, harg, hspeed]
    · rw [hv, harg, hspeedv, hspeed]
  · intro hc hlo
    simp only [INT_MIN] at hlo
    have hw : wrapInt (game.food_eaten_since_speedup + 1) = game.food_eaten_since_speedup + 1 :=
      wrapInt_of_range (by omega) (by omega)
    have hnot : ¬ (wrapInt (game.food_eaten_since_speedup + 1) ≥ SPEED_INCREASE_INTERVAL) := by
      rw [hw]
      simp only [SPEED_INCREASE_INTERVAL]
      omega
    rw [if_neg hnot] at hfields
    exact ⟨hfields.1, hfields.2.1, hfields.2.2.1⟩
  · intro hc hl hbh hbv
    have hthree : wrapInt (game.food_eaten_since_speedup + 1) ≥ SPEED_INCREASE_INTERVAL := by
      rw [hc]
      decide
    rw [if_pos hthree] at hfields
    obtain ⟨h1, h2, h3, -⟩ := hfields
    rw [h1, h2, h3]
    simp only [increaseGameSpeed, hl, hbh, hbv]
    decide

/-- Witness of C10: the third food at level 1 with base interval 160. -/
theorem moveSnake_speed_up_witness :
    (moveSnake thirdFoodGame 0).difficulty_level = 2 ∧
    (moveSnake thirdFoodGame 0).current_speed_h = 152 ∧
    (moveSnake thirdFoodGame 0).current_speed_v = 152 ∧
    (moveSnake thirdFoodGame 0).food_eaten_since_speedup = 0 :=
  have h := moveSnake_speed_up thirdFoodGame 0 (by decide)
  have h1 := h.1 rfl (by decide)
  have h3 := h.2.2 rfl rfl rfl rfl
  ⟨h3.1, h3.2.1, h3.2.2, h1.2.2.2⟩

/-! ## Unknown keys (C13) -/

/-- C13: a key whose upper-case form is none of `W`, `A`, `S`, `D`, `Q`
leaves the whole game state unchanged. -/
theorem handleInput_other_key (game : GameState) (input : Char)
    (h : toupper input ≠ 'W' ∧ toupper input ≠ 'A' ∧ toupper input ≠ 'S' ∧
      toupper input ≠ 'D' ∧ toupper input ≠ 'Q') :
    handleInput game input = game := by
  obtain ⟨hW, hA, hS, hD, hQ⟩ := h
  unfold handleInput
  simp only [if_neg hW, if_neg hA, if_neg hS, if_neg hD, if_neg hQ]
  split <;> rfl

/-- Witness of C13: the key `x` changes nothing at the start of a game. -/
theorem handleInput_other_key_witness : handleInput startGame 'x' = startGame :=
  handleInput_other_key startGame 'x' (by decide)

/-! ## Incremental rendering (C11) -/

theorem renderGame_false_grids (game : GameState) :
    (renderGame game false).1.current_grid = game.current_grid ∧
    (renderGame game false).1.previous_grid = game.previous_grid := by
  unfold renderGame
  simp only
  split <;> exact ⟨rfl, rfl⟩

theorem renderChanged_congr {g1 g2 : GameState} (hc : g1.current_grid = g2.current_grid)
    (hp : g1.previous_grid = g2.previous_grid) : renderChanged g1 = renderChanged g2 := by
  unfold renderChanged
  rw [hc, hp]

/-- The output of `renderGame` without a forced redraw: the status line when
the score changed, then the changed cells. -/
theorem renderGame_false_output (game : GameState) :
    (renderGame game false).2 =
      (if game.score ≠ game.prev_score then
          [TermOp.moveCursor 0 0, TermOp.printStatus game.score game.difficulty_level]
        else []) ++ renderChanged game := by
  unfold renderGame
  by_cases h : game.score ≠ game.prev_score
  · have hd : decide (game.score ≠ game.prev_score) = true := decide_eq_true h
    simp only [hd, Bool.true_or, if_true, Bool.false_eq_true, if_false, List.append_nil,
      if_pos h]
    congr 1
  · have hd : decide (game.score ≠ game.prev_score) = false := decide_eq_false h
    simp only [hd, Bool.or_false, Bool.false_eq_true, if_false, List.append_nil, if_neg h]

theorem renderGame_false_prev_score (game : GameState) :
    (renderGame game false).1.score = (renderGame game false).1.prev_score := by
  unfold renderGame
  by_cases h : game.score ≠ game.prev_score
  · simp [h]
  · have h2 : game.score = game.prev_score := not_not.1 h
    simp [h2]

/-- The second of two calls of `renderGame` without a forced redraw prints the
changed cells and nothing else. -/
theorem renderGame_twice_output (game : GameState) :
    (renderGame (renderGame game false).1 false).2 = renderChanged game := by
  rw [renderGame_false_output, if_neg (not_not.2 (renderGame_false_prev_score game))]
  exact renderChanged_congr (renderGame_false_grids game).1 (renderGame_false_grids game).2

theorem mem_renderChanged (game : GameState) (op : TermOp) :
    op ∈ renderChanged game ↔
      ∃ y x : Nat, y < HEIGHT ∧ x < WIDTH ∧
        game.current_grid y x ≠ game.previous_grid y x ∧
        (op = TermOp.moveCursor (y + 1) x ∨
          op = TermOp.putCell (cellColor (game.current_grid y x)) (game.current_grid y x)) := by
  unfold renderChanged
  simp only [List.mem_flatMap, List.mem_range]
  constructor
  · rintro ⟨y, hy, x, hx, hop⟩
    by_cases hd : game.current_grid y x ≠ game.previous_grid y x
    · rw [if_pos hd] at hop
      simp only [List.mem_cons, List.mem_singleton, List.not_mem_nil, or_false] at hop
      exact ⟨y, x, hy, hx, hd, hop⟩
    · rw [if_neg hd] at hop
      exact absurd hop (List.not_mem_nil _)
  · rintro ⟨y, x, hy, hx, hd, hop⟩
    refine ⟨y, hy, x, hx, ?_⟩
    rw [if_pos hd]
    simp only [List.mem_cons, List.mem_singleton, List.not_mem_nil, or_false]
    exact hop

theorem cellsWritten_renderChanged_eq_zero (game : GameState) :
    cellsWritten (renderChanged game) = 0 ↔
      ∀ y x : Nat, y < HEIGHT → x < WIDTH →
        game.current_grid y x = game.previous_grid y x := by
  unfold cellsWritten
  rw [List.countP_eq_zero]
  constructor
  · intro h y x hy hx
    by_contra hd
    exact h _ ((mem_renderChanged game _).2 ⟨y, x, hy, hx, hd, Or.inr rfl⟩) rfl
  · intro h op hop
    obtain ⟨y, x, hy, hx, hd, -⟩ := (mem_renderChanged game op).1 hop
    exact absurd (h y x hy hx) hd

theorem cellsWritten_renderGame_false (game : GameState) :
    cellsWritten (renderGame game false).2 = cellsWritten (renderChanged game) := by
  rw [renderGame_false_output]
  unfold cellsWritten
  split <;> simp [isCellWrite]

/-- C11, amended: the second of two consecutive calls of `renderGame` without
a forced redraw prints exactly the changed cells again, so it writes as many
grid cells as the first call, and it writes none exactly when `current_grid`
equals `previous_grid` on the whole grid. -/
theorem renderGame_twice (game : GameState) :
    (renderGame (renderGame game false).1 false).2 = renderChanged game ∧
    cellsWritten (renderGame (renderGame game false).1 false).2 =
      cellsWritten (renderGame game false).2 ∧
    (cellsWritten (renderGame (renderGame game false).1 false).2 = 0 ↔
      ∀ y x : Nat, y < HEIGHT → x < WIDTH →
        game.current_grid y x = game.previous_grid y x) := by
  refine ⟨renderGame_twice_output game, ?_, ?_⟩
  · rw [renderGame_twice_output, cellsWritten_renderGame_false]
  · rw [renderGame_twice_output]
    exact cellsWritten_renderChanged_eq_zero game

/-- Witness of C11, amended: at the start of a game the two grids are equal
and the second call writes no cell. -/
theorem renderGame_twice_witness :
    cellsWritten (renderGame (renderGame startGame false).1 false).2 = 0 :=
  (renderGame_twice startGame).2.2.2 (fun _ _ _ _ => rfl)

set_option maxRecDepth 100000 in
/-- C11 as stated fails: after the first tick of a game the head cell at row
10, column 21 differs between the two grids, and the second call writes it
again. -/
theorem renderGame_twice_writes_again :
    cellsWritten (renderGame (renderGame tickedGame false).1 false).2 ≠ 0 := by
  intro h
  rw [renderGame_twice_output] at h
  have h2 := (cellsWritten_renderChanged_eq_zero tickedGame).1 h 10 21 (by decide) (by decide)
  exact absurd h2 (by decide)

/-! ## Grid rebuild (C12) -/

theorem foldl_grid_keep {α : Type} (f : Grid → α → Grid) (y x : Nat) (P : Char → Prop)
    (l : List α) (h : ∀ g a, a ∈ l → P (g y x) → P (f g a y x)) :
    ∀ g : Grid, P (g y x) → P (l.foldl f g y x) := by
  induction l with
  | nil => intro g hg; exact hg
  | cons a l ih =>
    intro g hg
    rw [List.foldl_cons]
    exact ih (fun g b hb => h g b (List.mem_cons_of_mem a hb)) _
      (h g a (List.mem_cons_self a l) hg)

theorem foldl_grid_set {α : Type} (f : Grid → α → Grid) (y x : Nat) (P : Char → Prop)
    (l : List α) (hkeep : ∀ g a, a ∈ l → P (g y x) → P (f g a y x))
    (hset : ∃ a ∈ l, ∀ g : Grid, P (f g a y x)) :
    ∀ g : Grid, P (l.foldl f g y x) := by
  induction l with
  | nil =>
    obtain ⟨a, ha, -⟩ := hset
    exact absurd ha (List.not_mem_nil a)
  | cons a l ih =>
    intro g
    rw [List.foldl_cons]
    obtain ⟨b, hb, hb2⟩ := hset
    rcases List.mem_cons.1 hb with rfl | hbl
    · exact foldl_grid_keep f y x P l (fun g c hc => hkeep g c (List.mem_cons_of_mem b hc)) _
        (hb2 g)
    · exact ih (fun g c hc => hkeep g c (List.mem_cons_of_mem a hc)) ⟨b, hbl, hb2⟩ _

theorem foldl_grid_same {α : Type} (f : Grid → α → Grid) (y x : Nat) (l : List α)
    (h : ∀ g a, a ∈ l → f g a y x = g y x) : ∀ g : Grid, l.foldl f g y x = g y x := by
  intro g
  exact foldl_grid_keep f y x (fun c => c = g y x) l (fun g2 a ha hg => (h g2 a ha).trans hg) g rfl

theorem setCell_apply (grid : Grid) (y x : Nat) (c : Char) (y2 x2 : Nat) :
    setCell grid y x c y2 x2 = if y2 = y ∧ x2 = x then c else grid y2 x2 := rfl

/-- After the clearing loop every cell of the grid is `EMPTY`. -/
theorem clearGrid_apply (grid : Grid) (y x : Nat) (hy : y < HEIGHT) (hx : x < WIDTH) :
    clearGrid grid y x = EMPTY := by
  unfold clearGrid
  apply foldl_grid_set _ y x (fun c => c = EMPTY)
  · intro g a _ hg
    apply foldl_grid_keep _ y x (fun c => c = EMPTY) _ _ g hg
    intro g2 b _ hg2
    rw [setCell_apply]
    split
    · rfl
    · exact hg2
  · refine ⟨y, List.mem_range.2 hy, fun g => ?_⟩
    apply foldl_grid_set _ y x (fun c => c = EMPTY)
    · intro g2 b _ hg2
      rw [setCell_apply]
      split
      · rfl
      · exact hg2
    · refine ⟨x, List.mem_range.2 hx, fun g2 => ?_⟩
      rw [setCell_apply, if_pos ⟨rfl, rfl⟩]

theorem setCell_wall_keep (g : Grid) (y x y2 x2 : Nat) (h : g y2 x2 = WALL) :
    setCell g y x WALL y2 x2 = WALL := by
  rw [setCell_apply]
  split
  · rfl
  · exact h

/-- After the border loops every cell of the border ring is `WALL`. -/
theorem drawBorders_border (grid : Grid) (y x : Nat) (hy : y < HEIGHT) (hx : x < WIDTH)
    (hb : y = 0 ∨ y = HEIGHT - 1 ∨ x = 0 ∨ x = WIDTH - 1) :
    drawBorders grid y x = WALL := by
  unfold drawBorders
  have hkeepRows : ∀ (g : Grid) (a : Nat), a ∈ List.range WIDTH → g y x = WALL →
      setCell (setCell g 0 a WALL) (HEIGHT - 1) a WALL y x = WALL :=
    fun g a _ hg => setCell_wall_keep _ _ _ _ _ (setCell_wall_keep _ _ _ _ _ hg)
  have hkeepCols : ∀ (g : Grid) (a : Nat), a ∈ List.range HEIGHT → g y x = WALL →
      setCell (setCell g a 0 WALL) a (WIDTH - 1) WALL y x = WALL :=
    fun g a _ hg => setCell_wall_keep _ _ _ _ _ (setCell_wall_keep _ _ _ _ _ hg)
  rcases hb with h | h | h | h
  · apply foldl_grid_keep _ y x (fun c => c = WALL) _ hkeepCols
    apply foldl_grid_set _ y x (fun c => c = WALL) _ hkeepRows
    refine ⟨x, List.mem_range.2 hx, fun g => ?_⟩
    apply setCell_wall_keep
    rw [setCell_apply, if_pos ⟨h, rfl⟩]
  · apply foldl_grid_keep _ y x (fun c => c = WALL) _ hkeepCols
    apply foldl_grid_set _ y x (fun c => c = WALL) _ hkeepRows
    refine ⟨x, List.mem_range.2 hx, fun g => ?_⟩
    rw [setCell_apply, if_pos ⟨h, rfl⟩]
  · apply foldl_grid_set _ y x (fun c => c = WALL) _ hkeepCols
    refine ⟨y, List.mem_range.2 hy, fun g => ?_⟩
    apply setCell_wall_keep
    rw [setCell_apply, if_pos ⟨rfl, h⟩]
  · apply foldl_grid_set _ y x (fun c => c = WALL) _ hkeepCols
    refine ⟨y, List.mem_range.2 hy, fun g => ?_⟩
    rw [setCell_apply, if_pos ⟨rfl, h⟩]

/-- The snake loop leaves a cell alone on which no segment lies. -/
theorem drawSnake_miss (snake : Snake) (grid : Grid) (y x : Nat)
    (h : ∀ i : Nat, (i : Int) < snake.length → snake.positions i ≠ ⟨(x : Int), (y : Int)⟩) :
    drawSnake snake grid y x = grid y x := by
  unfold drawSnake
  apply foldl_grid_same
  intro g i hi
  have hlt : (i : Int) < snake.length := by
    have := List.mem_range.1 hi
    omega
  split
  · rename_i hin
    rw [setCell_apply, if_neg]
    rintro ⟨h1, h2⟩
    apply h i hlt
    rw [position_eq_iff]
    constructor
    · show (snake.positions i).x = (x : Int)
      omega
    · show (snake.positions i).y = (y : Int)
      omega
  · rfl

/-- The food write leaves every other cell alone. -/
theorem setCellInt_miss (grid : Grid) (fy fx : Int) (c : Char) (y x : Nat)
    (h : ¬ (fy = (y : Int) ∧ fx = (x : Int))) : setCellInt grid fy fx c y x = grid y x := by
  unfold setCellInt
  split
  · rw [setCell_apply, if_neg]
    rintro ⟨h1, h2⟩
    apply h
    constructor <;> omega
  · rfl

/-- C12, amended: with the food inside the grid, after `updateGameState` every
cell in row 0, row `HEIGHT - 1`, column 0 or column `WIDTH - 1` that is
neither the position of a snake segment below `snake.length` nor the food
position holds `WALL`. -/
theorem updateGameState_border (game : GameState)
    (_hfood : 0 ≤ game.food.x ∧ game.food.x < (WIDTH : Int) ∧
      0 ≤ game.food.y ∧ game.food.y < (HEIGHT : Int))
    (y x : Nat) (hy : y < HEIGHT) (hx : x < WIDTH)
    (hb : y = 0 ∨ y = HEIGHT - 1 ∨ x = 0 ∨ x = WIDTH - 1)
    (hsnake : ∀ i : Nat, (i : Int) < game.snake.length →
      game.snake.positions i ≠ ⟨(x : Int), (y : Int)⟩)
    (hnofood : game.food ≠ ⟨(x : Int), (y : Int)⟩) :
    (updateGameState game).current_grid y x = WALL := by
  have hf : ¬ (game.food.y = (y : Int) ∧ game.food.x = (x : Int)) := by
    rintro ⟨h1, h2⟩
    exact hnofood ((position_eq_iff _ _).2 ⟨h2, h1⟩)
  show setCellInt (drawSnake game.snake (drawBorders (clearGrid game.current_grid)))
    game.food.y game.food.x FOOD y x = WALL
  rw [setCellInt_miss _ _ _ _ _ _ hf, drawSnake_miss _ _ _ _ hsnake,
    drawBorders_border _ _ _ hy hx hb]

/-- Witness of C12, amended: the corner `(0, 0)` at the start of a game. -/
theorem updateGameState_border_witness : (updateGameState startGame).current_grid 0 0 = WALL :=
  updateGameState_border startGame (by decide) 0 0 (by decide) (by decide) (Or.inl rfl)
    (fun i _ h => absurd (show (10 : Int) = 0 from congrArg Position.y h) (by decide))
    (by decide)

set_option maxRecDepth 100000 in
/-- C12 as stated fails: after the snake has run into the left wall its head
is drawn over the wall cell in row 10, column 0. -/
theorem updateGameState_head_on_border :
    (0 ≤ crashedGame.food.x ∧ crashedGame.food.x < (WIDTH : Int) ∧
      0 ≤ crashedGame.food.y ∧ crashedGame.food.y < (HEIGHT : Int)) ∧
    ¬ (∀ y x : Nat, y < HEIGHT → x < WIDTH →
      (y = 0 ∨ y = HEIGHT - 1 ∨ x = 0 ∨ x = WIDTH - 1) →
      (updateGameState crashedGame).current_grid y x = WALL) := by
  refine ⟨by decide, fun h => ?_⟩
  have h2 := h 10 0 (by decide) (by decide) (Or.inr (Or.inr (Or.inl rfl)))
  exact absurd h2 (by decide)

/-! ## The terminal after a render (C17) -/

theorem foldl_keep {σ α : Type} (f : σ → α → σ) (P : σ → Prop) (l : List α)
    (h : ∀ s a, a ∈ l → P s → P (f s a)) : ∀ s : σ, P s → P (l.foldl f s) := by
  induction l with
  | nil => intro s hs; exact hs
  | cons a l ih =>
    intro s hs
    rw [List.foldl_cons]
    exact ih (fun s b hb => h s b (List.mem_cons_of_mem a hb)) _
      (h s a (List.mem_cons_self a l) hs)

theorem foldl_set {σ α : Type} (f : σ → α → σ) (P : σ → Prop) (l : List α)
    (hkeep : ∀ s a, a ∈ l → P s → P (f s a)) (hset : ∃ a ∈ l, ∀ s : σ, P (f s a)) :
    ∀ s : σ, P (l.foldl f s) := by
  induction l with
  | nil =>
    obtain ⟨a, ha, -⟩ := hset
    exact absurd ha (List.not_mem_nil a)
  | cons a l ih =>
    intro s
    rw [List.foldl_cons]
    obtain ⟨b, hb, hb2⟩ := hset
    rcases List.mem_cons.1 hb with rfl | hbl
    · exact foldl_keep f P l (fun s c hc => hkeep s c (List.mem_cons_of_mem b hc)) _ (hb2 s)
    · exact ih (fun s c hc => hkeep s c (List.mem_cons_of_mem a hc)) ⟨b, hbl, hb2⟩ _

theorem run_cons (t : Terminal) (op : TermOp) (ops : List TermOp) :
    t.run (op :: ops) = (t.exec op).run ops := rfl

theorem run_append (t : Terminal) (a b : List TermOp) : t.run (a ++ b) = (t.run a).run b := by
  unfold Terminal.run
  rw [List.foldl_append]

theorem run_flatMap {α : Type} (f : α → List TermOp) (l : List α) :
    ∀ t : Terminal, t.run (l.flatMap f) = l.foldl (fun t a => t.run (f a)) t := by
  induction l with
  | nil => intro t; rfl
  | cons a l ih =>
    intro t
    rw [List.flatMap_cons, run_append, ih, List.foldl_cons]

theorem putText_row (text : List Char) :
    ∀ t : Terminal, (t.putText text).row = t.row := by
  induction text with
  | nil => intro t; rfl
  | cons c text ih =>
    intro t
    show ((t.putChar c).putText text).row = t.row
    rw [ih]
    rfl

/-- A text changes the screen only in the row of the cursor. -/
theorem putText_screen (text : List Char) :
    ∀ (t : Terminal) (r c : Nat), r ≠ t.row → (t.putText text).screen r c = t.screen r c := by
  induction text with
  | nil => intro t r c _; rfl
  | cons ch text ih =>
    intro t r c hr
    show ((t.putChar ch).putText text).screen r c = t.screen r c
    rw [ih (t.putChar ch) r c hr]
    show setCell t.screen t.row t.col ch r c = t.screen r c
    rw [setCell_apply, if_neg (fun h => hr h.1)]

/-- The incremental redraw turns a terminal that shows `previous_grid` into
one that shows `current_grid`. -/
theorem run_renderChanged_shows (game : GameState) (t : Terminal)
    (h : t.showsGrid game.previous_grid) :
    (t.run (renderChanged game)).showsGrid game.current_grid := by
  intro y0 x0 hy0 hx0
  unfold renderChanged
  rw [run_flatMap]
  have hstep : ∀ (t : Terminal) (y x : Nat),
      t.screen (y0 + 1) x0 = game.current_grid y0 x0 →
      (t.run (if game.current_grid y x ≠ game.previous_grid y x then
          [TermOp.moveCursor (y + 1) x,
            TermOp.putCell (cellColor (game.current_grid y x)) (game.current_grid y x)]
        else [])).screen (y0 + 1) x0 = game.current_grid y0 x0 := by
    intro t y x ht
    split
    · show setCell t.screen (y + 1) x (game.current_grid y x) (y0 + 1) x0 = _
      rw [setCell_apply]
      split
      · rename_i heq
        have h1 : y0 = y := by omega
        rw [h1, heq.2]
      · exact ht
    · exact ht
  have hrow : ∀ (t : Terminal) (y : Nat),
      t.screen (y0 + 1) x0 = game.current_grid y0 x0 →
      (t.run ((List.range WIDTH).flatMap fun x =>
        if game.current_grid y x ≠ game.previous_grid y x then
          [TermOp.moveCursor (y + 1) x,
            TermOp.putCell (cellColor (game.current_grid y x)) (game.current_grid y x)]
        else [])).screen (y0 + 1) x0 = game.current_grid y0 x0 := by
    intro t y ht
    rw [run_flatMap]
    exact foldl_keep _ (fun t => t.screen (y0 + 1) x0 = game.current_grid y0 x0) _
      (fun s x _ hs => hstep s y x hs) t ht
  by_cases hd : game.current_grid y0 x0 ≠ game.previous_grid y0 x0
  · apply foldl_set _ (fun t => t.screen (y0 + 1) x0 = game.current_grid y0 x0) _
      (fun s y _ hs => hrow s y hs)
    refine ⟨y0, List.mem_range.2 hy0, fun s => ?_⟩
    show (s.run _).screen (y0 + 1) x0 = game.current_grid y0 x0
    rw [run_flatMap]
    apply foldl_set _ (fun t => t.screen (y0 + 1) x0 = game.current_grid y0 x0) _
      (fun s x _ hs => hstep s y0 x hs)
    refine ⟨x0, List.mem_range.2 hx0, fun s => ?_⟩
    show (s.run _).screen (y0 + 1) x0 = game.current_grid y0 x0
    rw [if_pos hd]
    show setCell s.screen (y0 + 1) x0 (game.current_grid y0 x0) (y0 + 1) x0 = _
    rw [setCell_apply, if_pos ⟨rfl, rfl⟩]
  · apply foldl_keep _ (fun t => t.screen (y0 + 1) x0 = game.current_grid y0 x0) _
      (fun s y _ hs => hrow s y hs)
    show t.screen (y0 + 1) x0 = game.current_grid y0 x0
    rw [h y0 x0 hy0 hx0]
    exact (not_not.1 hd).symm

/-- The cells of one row, printed from column 0. -/
theorem run_cells (color : Nat → Option Color) (g : Nat → Char) (t : Terminal) (h0 : t.col = 0)
    (n : Nat) :
    (t.run ((List.range n).map fun x => TermOp.putCell (color x) (g x))).row = t.row ∧
    (t.run ((List.range n).map fun x => TermOp.putCell (color x) (g x))).col = n ∧
    ∀ r c : Nat,
      (t.run ((List.range n).map fun x => TermOp.putCell (color x) (g x))).screen r c =
        if r = t.row ∧ c < n then g c else t.screen r c := by
  induction n with
  | zero =>
    refine ⟨rfl, h0, fun r c => ?_⟩
    rw [if_neg (by omega)]
    rfl
  | succ n ih =>
    obtain ⟨ih1, ih2, ih3⟩ := ih
    rw [List.range_succ, List.map_append, run_append]
    refine ⟨ih1, ?_, fun r c => ?_⟩
    · show (t.run _).col + 1 = n + 1
      rw [ih2]
    · show setCell (t.run _).screen (t.run _).row (t.run _).col (g n) r c = _
      rw [setCell_apply, ih1, ih2, ih3]
      by_cases h1 : r = t.row ∧ c = n
      · rw [if_pos h1, if_pos ⟨h1.1, by omega⟩, h1.2]
      · rw [if_neg h1]
        by_cases h2 : r = t.row ∧ c < n
        · rw [if_pos h2, if_pos ⟨h2.1, by omega⟩]
        · rw [if_neg h2, if_neg (by omega)]

/-- The rows of the full redraw, printed from the start of a row. -/
theorem run_rows (grid : Grid) (t : Terminal) (h0 : t.col = 0) (n : Nat) :
    (t.run ((List.range n).flatMap fun y =>
      ((List.range WIDTH).map fun x => TermOp.putCell (cellColor (grid y x)) (grid y x)) ++
        [TermOp.newline])).row = t.row + n ∧
    (t.run ((List.range n).flatMap fun y =>
      ((List.range WIDTH).map fun x => TermOp.putCell (cellColor (grid y x)) (grid y x)) ++
        [TermOp.newline])).col = 0 ∧
    ∀ r c : Nat,
      (t.run ((List.range n).flatMap fun y =>
        ((List.range WIDTH).map fun x => TermOp.putCell (cellColor (grid y x)) (grid y x)) ++
          [TermOp.newline])).screen r c =
        if t.row ≤ r ∧ r < t.row + n ∧ c < WIDTH then grid (r - t.row) c else t.screen r c := by
  induction n with
  | zero =>
    refine ⟨rfl, h0, fun r c => ?_⟩
    rw [if_neg (by omega)]
    rfl
  | succ n ih =>
    obtain ⟨ih1, ih2, ih3⟩ := ih
    rw [List.range_succ, List.flatMap_append, run_append, List.flatMap_singleton, run_append]
    obtain ⟨c1, -, c3⟩ :=
      run_cells (fun x => cellColor (grid n x)) (grid n) _ ih2 WIDTH
    have hn1 : ∀ T : Terminal, (T.run [TermOp.newline]).screen = T.screen := fun _ => rfl
    have hn2 : ∀ T : Terminal, (T.run [TermOp.newline]).row = T.row + 1 := fun _ => rfl
    refine ⟨?_, rfl, fun r c => ?_⟩
    · rw [hn2, c1, ih1]
      omega
    · rw [hn1, c3, ih1, ih3]
      by_cases h1 : r = t.row + n ∧ c < WIDTH
      · rw [if_pos h1, if_pos ⟨by omega, by omega, h1.2⟩]
        congr 1
        omega
      · rw [if_neg h1]
        by_cases h2 : t.row ≤ r ∧ r < t.row + n ∧ c < WIDTH
        · rw [if_pos h2, if_pos ⟨h2.1, by omega, h2.2.2⟩]
        · rw [if_neg h2, if_neg (by omega)]

/-- The full redraw makes the terminal show `current_grid`. -/
theorem run_renderFull_shows (game : GameState) (t : Terminal) :
    (t.run (renderFull game)).showsGrid game.current_grid ∧
    (t.run (renderFull game)).row = HEIGHT + 1 := by
  obtain ⟨h1, -, h3⟩ := run_rows game.current_grid { t with row := 1, col := 0 } rfl HEIGHT
  have hrun : t.run (renderFull game) =
      Terminal.run { t with row := 1, col := 0 }
        ((List.range HEIGHT).flatMap fun y =>
          ((List.range WIDTH).map fun x =>
            TermOp.putCell (cellColor (game.current_grid y x)) (game.current_grid y x)) ++
            [TermOp.newline]) := by
    unfold renderFull
    rw [run_cons]
    rfl
  rw [hrun]
  constructor
  · intro y x hy hx
    rw [h3, if_pos ⟨by show 1 ≤ y + 1; omega, by show y + 1 < 1 + HEIGHT; omega, hx⟩]
    rfl
  · rw [h1]
    exact Nat.add_comm 1 HEIGHT

theorem showsGrid_of_rows {t1 t2 : Terminal} {grid : Grid} (h : t1.showsGrid grid)
    (hrows : ∀ r c : Nat, 1 ≤ r → r ≤ HEIGHT → t2.screen r c = t1.screen r c) :
    t2.showsGrid grid := by
  intro y x hy hx
  rw [hrows (y + 1) x (by omega) (by omega)]
  exact h y x hy hx

/-- The status line leaves the grid area alone. -/
theorem run_status_rows (t : Terminal) (score level : Int) (r c : Nat) (hr : 1 ≤ r) :
    (t.run [TermOp.moveCursor 0 0, TermOp.printStatus score level]).screen r c =
      t.screen r c := by
  show (Terminal.putText { t with row := 0, col := 0 } (statusText score level)).screen r c = _
  rw [putText_screen _ _ r c (by show r ≠ 0; omega)]

/-- The instructions line leaves the grid area alone. -/
theorem run_controls_rows (t : Terminal) (r c : Nat) (hr : r ≤ HEIGHT) :
    (t.run [TermOp.moveCursor (HEIGHT + 1) 0, TermOp.printControls]).screen r c =
      t.screen r c := by
  show (Terminal.putText { t with row := HEIGHT + 1, col := 0 } controlsText).screen r c = _
  rw [putText_screen _ _ r c (by show r ≠ HEIGHT + 1; omega)]

/-- The forced redraw of `renderGame` makes the terminal show `current_grid`. -/
theorem run_renderGame_true_shows (game : GameState) (t : Terminal) :
    (t.run (renderGame game true).2).showsGrid game.current_grid := by
  have hout : (renderGame game true).2 =
      [TermOp.moveCursor 0 0, TermOp.printStatus game.score game.difficulty_level] ++
        renderFull { game with prev_score := game.score } ++
        [TermOp.moveCursor (HEIGHT + 1) 0, TermOp.printControls] := by
    unfold renderGame
    simp
  rw [hout, run_append, run_append]
  apply showsGrid_of_rows (run_renderFull_shows { game with prev_score := game.score } _).1
  intro r c _ hr2
  exact run_controls_rows _ r c hr2

/-- The incremental redraw of `renderGame` turns a terminal that shows
`previous_grid` into one that shows `current_grid`. -/
theorem run_renderGame_false_shows (game : GameState) (t : Terminal)
    (h : t.showsGrid game.previous_grid) :
    (t.run (renderGame game false).2).showsGrid game.current_grid := by
  rw [renderGame_false_output, run_append]
  apply run_renderChanged_shows
  split
  · exact showsGrid_of_rows h (fun r c hr1 _ => run_status_rows t _ _ r c hr1)
  · exact h

theorem cellWrites_append (a : List TermOp) :
    ∀ (t : Terminal) (b : List TermOp),
      cellWrites t (a ++ b) = cellWrites t a ++ cellWrites (t.run a) b := by
  induction a with
  | nil => intro t b; rfl
  | cons op a ih =>
    intro t b
    cases op <;> simp [cellWrites, ih, run_cons]

theorem cellWrites_flatMap {α : Type} (f : α → List TermOp) (w : α → List (Nat × Nat × Char))
    (h : ∀ (t : Terminal) (a : α), cellWrites t (f a) = w a) (l : List α) :
    ∀ t : Terminal, cellWrites t (l.flatMap f) = l.flatMap w := by
  induction l with
  | nil => intro t; rfl
  | cons a l ih =>
    intro t
    rw [List.flatMap_cons, List.flatMap_cons, cellWrites_append, h, ih]

/-- The cells the incremental redraw writes. -/
theorem cellWrites_renderChanged (game : GameState) (t : Terminal) :
    cellWrites t (renderChanged game) = changedCells game := by
  unfold renderChanged changedCells
  apply cellWrites_flatMap
  intro t y
  apply cellWrites_flatMap
  intro t x
  split <;> rfl

theorem cellWrites_renderGame_false (game : GameState) (t : Terminal) :
    cellWrites t (renderGame game false).2 = changedCells game := by
  rw [renderGame_false_output, cellWrites_append, cellWrites_renderChanged]
  split <;> rfl

/-- C17: with the food inside the grid and a terminal that shows
`current_grid`, after `updateGameState` and the incremental `renderGame` the
terminal shows the new `current_grid`, which is what the forced redraw would
leave in the grid area, and the cells written are exactly the cells `(x, y)`
in which the new `current_grid` differs from `previous_grid`, each at terminal
row `y + 1`, column `x`. -/
theorem renderGame_after_update (game : GameState) (t : Terminal)
    (_hfood : 0 ≤ game.food.x ∧ game.food.x < (WIDTH : Int) ∧
      0 ≤ game.food.y ∧ game.food.y < (HEIGHT : Int))
    (hshow : t.showsGrid game.current_grid) :
    (t.run (renderGame (updateGameState game) false).2).showsGrid
      (updateGameState game).current_grid ∧
    (renderGame (updateGameState game) false).1.current_grid =
      (updateGameState game).current_grid ∧
    (∀ y x : Nat, y < HEIGHT → x < WIDTH →
      (t.run (renderGame (updateGameState game) false).2).screen (y + 1) x =
        (t.run (renderGame (updateGameState game) true).2).screen (y + 1) x) ∧
    cellWrites t (renderGame (updateGameState game) false).2 =
      changedCells (updateGameState game) := by
  have hinc := run_renderGame_false_shows (updateGameState game) t hshow
  have hfull := run_renderGame_true_shows (updateGameState game) t
  refine ⟨hinc, (renderGame_false_grids _).1, ?_, cellWrites_renderGame_false _ t⟩
  intro y x hy hx
  rw [hinc y x hy hx, hfull y x hy hx]

/-- Witness of C17: the first rebuild of a game on a terminal that shows its
grid. -/
theorem renderGame_after_update_witness :
    (Terminal.run (terminalOf startGame)
      (renderGame (updateGameState startGame) false).2).showsGrid
      (updateGameState startGame).current_grid ∧
    cellWrites (terminalOf startGame) (renderGame (updateGameState startGame) false).2 =
      changedCells (updateGameState startGame) :=
  have h := renderGame_after_update startGame (terminalOf startGame) (by decide)
    (fun _ _ _ _ => rfl)
  ⟨h.1, h.2.2.2⟩

/-! ## Food placement against its reference (C18) -/

theorem cellIsEmpty_eq_not_isSegment (game : GameState) (x y : Nat) :
    cellIsEmpty game x y = !isSegment game ⟨(x : Int), (y : Int)⟩ := by
  rw [Bool.eq_iff_iff, cellIsEmpty_iff]
  unfold isSegment
  simp only [Bool.not_eq_true', List.any_eq_false, List.mem_range, decide_eq_true_eq]
  constructor
  · intro h i hi
    exact h i (by omega)
  · intro h i hi
    exact h i (by omega)

/-- The array `empty_cells` of `generateFood` is the list of free interior
cells. -/
theorem emptyCells_eq_freeCells (game : GameState) : emptyCells game = freeCells game := by
  rw [emptyCells_eq]
  unfold freeCells interiorCells
  rw [List.filter_flatMap]
  congr 1
  funext y
  rw [List.filter_map]
  congr 2
  funext x
  exact cellIsEmpty_eq_not_isSegment game x y

/-- C18: `generateFood` is its reference: with `C` the free interior cells in
row-major order, the food becomes `C[r mod |C|]` when `C` is not empty, so
every free interior cell is chosen by some draw, and when `C` is empty the
state is left as it is. -/
theorem generateFood_eq_reference (game : GameState) (r : Nat) :
    generateFood game r = generateFoodReference game r ∧
    (∀ p : Position, p ∈ freeCells game → ∃ r2 : Nat, (generateFood game r2).food = p) ∧
    (freeCells game = [] → generateFood game r = game) := by
  have hgen : ∀ r2 : Nat, generateFood game r2 = generateFoodReference game r2 := by
    intro r2
    unfold generateFood generateFoodReference
    simp only [emptyCells_eq_freeCells, gt_iff_lt]
    by_cases h : 0 < (freeCells game).length
    · rw [if_pos h, dif_pos h, List.getD_eq_getElem _ _ (Nat.mod_lt r2 h)]
      rfl
    · rw [if_neg h, dif_neg h]
  refine ⟨hgen r, ?_, ?_⟩
  · intro p hp
    obtain ⟨n, hn, hget⟩ := List.mem_iff_getElem.1 hp
    refine ⟨n, ?_⟩
    have hpos : 0 < (freeCells game).length := by omega
    rw [hgen n]
    unfold generateFoodReference
    rw [dif_pos hpos]
    show (freeCells game).get ⟨n % (freeCells game).length, _⟩ = p
    simp only [Nat.mod_eq_of_lt hn, List.get_eq_getElem]
    exact hget
  · intro hnil
    rw [hgen r]
    unfold generateFoodReference
    rw [dif_neg]
    rw [hnil]
    exact Nat.lt_irrefl 0

/-- Witness of C18: on the full board no cell is free and the state is left
as it is. -/
theorem generateFood_eq_reference_witness : generateFood fullBoardGame 5 = fullBoardGame :=
  (generateFood_eq_reference fullBoardGame 5).2.2
    ((emptyCells_eq_freeCells fullBoardGame).symm.trans emptyCells_fullBoardGame)

/-! ## Reachable states: the induction principle -/

theorem renderGame_state (game : GameState) (force : Bool) :
    (renderGame game force).1 = game ∨
      (renderGame game force).1 = { game with prev_score := game.score } := by
  unfold renderGame
  simp only
  split
  · exact Or.inr rfl
  · exact Or.inl rfl

theorem gameLoopBody_state (game : GameState) (last_move_time : Nat) (key : Option Char)
    (current_time r : Nat) :
    ∃ g1 : GameState, (g1 = game ∨ ∃ input : Char, g1 = handleInput game input) ∧
      ((gameLoopBody game last_move_time key current_time r).1 = g1 ∨
        (gameLoopBody game last_move_time key current_time r).1 =
          (renderGame (updateGameState (moveSnake g1 r)) false).1) := by
  unfold gameLoopBody
  cases key with
  | none =>
    refine ⟨game, Or.inl rfl, ?_⟩
    simp only
    split_ifs <;> first
      | exact Or.inr rfl
      | exact Or.inl rfl
  | some input =>
    refine ⟨handleInput game input, Or.inr ⟨input, rfl⟩, ?_⟩
    simp only
    split_ifs <;> first
      | exact Or.inr rfl
      | exact Or.inl rfl

/-- Induction over the reachable states: `inv` holds at the start and is
kept by every step; `pre` is what `guard` gives for a move and survives a
key. -/
theorem reachableVia_induction (guard inv pre : GameState → Prop)
    (hinit : ∀ memory r, inv (initializeGame memory r))
    (hinput : ∀ s input, inv s → inv (handleInput s input))
    (hpre : ∀ s, inv s → guard s → pre s)
    (hpre_input : ∀ s input, pre s → pre (handleInput s input))
    (hmove : ∀ s r, inv s → pre s → inv (moveSnake s r))
    (hupdate : ∀ s, inv s → inv (updateGameState s))
    (hrender : ∀ s, inv s → inv { s with prev_score := s.score }) :
    ∀ s, ReachableVia guard s → inv s := by
  have hrender2 : ∀ s force, inv s → inv (renderGame s force).1 := by
    intro s force hs
    rcases renderGame_state s force with h | h
    · rw [h]; exact hs
    · rw [h]; exact hrender s hs
  intro s hs
  induction hs with
  | init memory r => exact hinit memory r
  | input s input _ ih => exact hinput s input ih
  | move s r _ hg ih => exact hmove s r ih (hpre s ih hg)
  | update s _ ih => exact hupdate s ih
  | render s force _ ih => exact hrender2 s force ih
  | iteration s last key now r _ hg ih =>
    obtain ⟨g1, hg1, hres⟩ := gameLoopBody_state s last key now r
    have hinv1 : inv g1 := by
      rcases hg1 with h | ⟨input, h⟩
      · rw [h]; exact ih
      · rw [h]; exact hinput s input ih
    have hpre1 : pre g1 := by
      rcases hg1 with h | ⟨input, h⟩
      · rw [h]; exact hpre s ih hg
      · rw [h]; exact hpre_input s input (hpre s ih hg)
    rcases hres with h | h
    · rw [h]; exact hinv1
    · rw [h]
      exact hrender2 _ false (hupdate _ (hmove g1 r hinv1 hpre1))

theorem updateGameState_snake (game : GameState) :
    (updateGameState game).snake = game.snake := rfl

/-- The counters and intervals `initializeGame` leaves. -/
theorem initializeGame_fields (memory : GameState) (r : Nat) :
    (initializeGame memory r).game_over = false ∧
    (initializeGame memory r).score = 0 ∧
    (initializeGame memory r).food_eaten_since_speedup = 0 ∧
    (initializeGame memory r).difficulty_level = 1 ∧
    (initializeGame memory r).base_speed_h = 160 ∧
    (initializeGame memory r).base_speed_v = 160 ∧
    (initializeGame memory r).current_speed_h = 160 ∧
    (initializeGame memory r).current_speed_v = 160 := by
  unfold initializeGame
  simp only
  rw [generateFood_frame]
  exact ⟨rfl, rfl, rfl, rfl, rfl, rfl, rfl, rfl⟩

/-- The snake and the flags `initializeGame` leaves. -/
theorem initializeGame_snake (memory : GameState) (r : Nat) :
    (initializeGame memory r).snake.length = 3 ∧
    (initializeGame memory r).snake.direction = Direction.RIGHT ∧
    (initializeGame memory r).snake.pending_direction = Direction.RIGHT ∧
    (initializeGame memory r).snake.direction_changed = false ∧
    (initializeGame memory r).snake.positions 0 = ⟨20, 10⟩ ∧
    (initializeGame memory r).snake.positions 1 = ⟨19, 10⟩ ∧
    (initializeGame memory r).snake.positions 2 = ⟨18, 10⟩ := by
  have h : (initializeGame memory r).snake =
      { length := 3
        direction := Direction.RIGHT
        pending_direction := Direction.RIGHT
        direction_changed := false
        positions :=
          Function.update (Function.update (Function.update memory.snake.positions 0 ⟨20, 10⟩)
            1 ⟨19, 10⟩) 2 ⟨18, 10⟩ } := by
    unfold initializeGame
    simp only [updateGameState_snake, generateFood_snake]
    rfl
  rw [h]
  exact ⟨rfl, rfl, rfl, rfl, rfl, rfl, rfl⟩

/-! ## No reversal (C15) -/

theorem handleInput_pending (s : GameState) (input : Char)
    (h : s.snake.pending_direction ≠ s.snake.direction.reverse) :
    (handleInput s input).snake.pending_direction ≠
      (handleInput s input).snake.direction.reverse := by
  unfold handleInput
  simp only
  split_ifs <;> first
    | exact h
    | (cases hd : s.snake.direction <;> simp_all [Direction.reverse])

theorem moveSnake_direction (s : GameState) (r : Nat) :
    (moveSnake s r).snake.direction = s.snake.pending_direction ∧
    (moveSnake s r).snake.pending_direction = s.snake.pending_direction := by
  rw [moveSnake_snake]
  split <;> exact ⟨rfl, rfl⟩

theorem reverse_ne (d : Direction) : d ≠ d.reverse := by
  cases d <;> decide

/-- C15: in every state reachable from `initializeGame` by `handleInput` with
any key and `moveSnake` with any draw, `pending_direction` is not the reverse
of the active direction; so the active direction after a `moveSnake` is never
the reverse of the active direction before it. -/
theorem reachable_no_reversal (s : GameState) (hs : ReachableVia always s) :
    s.snake.pending_direction ≠ s.snake.direction.reverse ∧
    ∀ r : Nat, (moveSnake s r).snake.direction ≠ s.snake.direction.reverse := by
  have hinv : s.snake.pending_direction ≠ s.snake.direction.reverse := by
    refine reachableVia_induction always
      (fun s => s.snake.pending_direction ≠ s.snake.direction.reverse) (fun _ => True)
      ?_ ?_ ?_ ?_ ?_ ?_ ?_ s hs
    · intro memory r
      obtain ⟨-, h1, h2, -⟩ := initializeGame_snake memory r
      show (initializeGame memory r).snake.pending_direction ≠
        (initializeGame memory r).snake.direction.reverse
      rw [h1, h2]
      decide
    · intro s input h
      exact handleInput_pending s input h
    · intro _ _ _
      trivial
    · intro _ _ _
      trivial
    · intro s r _ _
      show (moveSnake s r).snake.pending_direction ≠ (moveSnake s r).snake.direction.reverse
      rw [(moveSnake_direction s r).1, (moveSnake_direction s r).2]
      exact reverse_ne _
    · intro s h
      exact h
    · intro s h
      exact h
  refine ⟨hinv, fun r => ?_⟩
  rw [(moveSnake_direction s r).1]
  exact hinv

/-- Witness of C15: the state after `initializeGame`, a `w` and a move. -/
theorem reachable_no_reversal_witness :
    (moveSnake (handleInput (initializeGame startGame 0) 'w') 0).snake.pending_direction ≠
      (moveSnake (handleInput (initializeGame startGame 0) 'w') 0).snake.direction.reverse :=
  (reachable_no_reversal _
    (ReachableVia.move _ 0 (ReachableVia.input _ 'w' (ReachableVia.init startGame 0))
      trivial)).1

/-! ## Counting cells -/

theorem card_interior :
    (Finset.Icc (1 : Int) 38 ×ˢ Finset.Icc (1 : Int) 18).card = 684 := by
  rw [Finset.card_product, Int.card_Icc, Int.card_Icc]
  rfl

/-- A snake on pairwise different interior cells has at most 684 segments. -/
theorem snakeIntact_length_le (s : GameState) (h : snakeIntact s) : s.snake.length ≤ 684 := by
  obtain ⟨hin, hinj⟩ := h
  have hcard := Finset.card_le_card_of_injOn
    (s := Finset.range s.snake.length.toNat)
    (t := Finset.Icc (1 : Int) 38 ×ˢ Finset.Icc (1 : Int) 18)
    (fun i => ((s.snake.positions i).x, (s.snake.positions i).y))
    (by
      intro i hi
      have hlt : (i : Int) < s.snake.length := by
        have := Finset.mem_range.1 hi
        omega
      obtain ⟨h1, h2, h3, h4⟩ := hin i hlt
      simp only [WIDTH, HEIGHT] at h2 h4
      simp only [Finset.mem_product, Finset.mem_Icc]
      exact ⟨⟨h1, by omega⟩, ⟨h3, by omega⟩⟩)
    (by
      intro i hi j hj hij
      have hi2 : (i : Int) < s.snake.length := by
        have := Finset.mem_range.1 (Finset.mem_coe.1 hi)
        omega
      have hj2 : (j : Int) < s.snake.length := by
        have := Finset.mem_range.1 (Finset.mem_coe.1 hj)
        omega
      simp only [Prod.mk.injEq] at hij
      exact hinj i j hi2 hj2 ((position_eq_iff _ _).2 hij))
  rw [Finset.card_range, card_interior] at hcard
  omega

/-- A snake with fewer than 684 segments leaves an interior cell free. -/
theorem exists_free_cell (game : GameState) (h : game.snake.length < 684) :
    ∃ x y : Nat, 1 ≤ x ∧ x ≤ WIDTH - 2 ∧ 1 ≤ y ∧ y ≤ HEIGHT - 2 ∧
      ∀ i : Nat, (i : Int) < game.snake.length →
        game.snake.positions i ≠ ⟨(x : Int), (y : Int)⟩ := by
  by_contra hno
  have hsub : (Finset.Icc (1 : Int) 38 ×ˢ Finset.Icc (1 : Int) 18) ⊆
      (Finset.range game.snake.length.toNat).image
        (fun i => ((game.snake.positions i).x, (game.snake.positions i).y)) := by
    intro p hp
    simp only [Finset.mem_product, Finset.mem_Icc] at hp
    obtain ⟨⟨hx1, hx2⟩, ⟨hy1, hy2⟩⟩ := hp
    by_contra hnot
    apply hno
    refine ⟨p.1.toNat, p.2.toNat, by omega, by simp only [WIDTH]; omega, by omega,
      by simp only [HEIGHT]; omega, ?_⟩
    intro i hi heq
    apply hnot
    rw [Finset.mem_image]
    refine ⟨i, Finset.mem_range.2 (by omega), ?_⟩
    rw [heq]
    ext
    · show ((p.1.toNat : Nat) : Int) = p.1
      omega
    · show ((p.2.toNat : Nat) : Int) = p.2
      omega
  have h1 := Finset.card_le_card hsub
  have h2 := Finset.card_image_le (s := Finset.range game.snake.length.toNat)
    (f := fun i => ((game.snake.positions i).x, (game.snake.positions i).y))
  rw [card_interior] at h1
  rw [Finset.card_range] at h2
  omega

/-! ## The length stays inside the array (C14) -/

/-- Every segment behind the head, the appended one included, lies where its
predecessor was. -/
theorem moveSnake_segment (game : GameState) (r : Nat)
    (hlen : 1 ≤ game.snake.length) (hcap : game.snake.length < 800)
    (i : Nat) (hi1 : 1 ≤ i) (hi2 : (i : Int) < (moveSnake game r).snake.length) :
    (moveSnake game r).snake.positions i = game.snake.positions (i - 1) := by
  by_cases hi : (i : Int) < game.snake.length
  · exact moveSnake_body game r hlen hcap i hi1 hi
  · have hl := moveSnake_length game r hlen hcap
    by_cases hate : stepHead game.snake.pending_direction (game.snake.positions 0) = game.food
    · rw [if_pos hate] at hl
      have hin : i = game.snake.length.toNat := by omega
      have hw1 : wrapInt (game.snake.length - 1) = game.snake.length - 1 :=
        wrapInt_of_range (by omega) (by omega)
      have hw2 : wrapInt (game.snake.length + 1) = game.snake.length + 1 :=
        wrapInt_of_range (by omega) (by omega)
      have hw3 : wrapInt (game.snake.length + 1 - 1) = game.snake.length :=
        (wrapInt_of_range (by omega) (by omega)).trans (by omega)
      have hidx : (game.snake.length - 1).toNat = game.snake.length.toNat - 1 := by omega
      rw [← advanceSnake_head] at hate
      rw [moveSnake_snake, if_pos hate, hw1, hw2, hw3, hidx, hin]
      dsimp only
      rw [Function.update_same]
    · rw [if_neg hate] at hl
      omega

/-- A move of an intact snake: the length grows by at most one, and if the
move ends without a collision the snake is intact again. -/
theorem moveSnake_intact (game : GameState) (r : Nat) (hlen : 1 ≤ game.snake.length)
    (h : snakeIntact game) :
    game.snake.length ≤ (moveSnake game r).snake.length ∧
    (moveSnake game r).snake.length ≤ game.snake.length + 1 ∧
    ((moveSnake game r).game_over = false → snakeIntact (moveSnake game r)) := by
  have hcap : game.snake.length < 800 := by
    have := snakeIntact_length_le game h
    omega
  have hl := moveSnake_length game r hlen hcap
  refine ⟨by rw [hl]; split <;> omega, by rw [hl]; split <;> omega, ?_⟩
  intro hgo
  rw [moveSnake_game_over_eq] at hgo
  have hnc : ¬ (checkCollision (moveSnake game r) = true) := by
    rw [hgo]
    exact Bool.false_ne_true
  have hW : ((WIDTH : Nat) : Int) = 40 := rfl
  have hH : ((HEIGHT : Nat) : Int) = 20 := rfl
  rw [checkCollision_spec, hW, hH] at hnc
  have hborder : ¬ (((moveSnake game r).snake.positions 0).x ≤ 0 ∨
      ((moveSnake game r).snake.positions 0).x ≥ 40 - 1 ∨
      ((moveSnake game r).snake.positions 0).y ≤ 0 ∨
      ((moveSnake game r).snake.positions 0).y ≥ 20 - 1) := fun hb => hnc (Or.inl hb)
  have hself : ∀ i : Nat, 1 ≤ i → (i : Int) < (moveSnake game r).snake.length →
      (moveSnake game r).snake.positions 0 ≠ (moveSnake game r).snake.positions i :=
    fun i h1 h2 heq => hnc (Or.inr ⟨i, h1, h2, heq⟩)
  have hlen2 : (moveSnake game r).snake.length ≤ game.snake.length + 1 := by
    rw [hl]
    split <;> omega
  obtain ⟨hin, hinj⟩ := h
  constructor
  · intro i hi
    by_cases h0 : i = 0
    · subst h0
      unfold isInterior
      rw [hW, hH]
      omega
    · rw [moveSnake_segment game r hlen hcap i (by omega) hi]
      exact hin (i - 1) (by omega)
  · intro i j hi hj heq
    by_cases hi0 : i = 0
    · by_cases hj0 : j = 0
      · omega
      · subst hi0
        exact absurd heq (hself j (by omega) hj)
    · by_cases hj0 : j = 0
      · subst hj0
        exact absurd heq.symm (hself i (by omega) hi)
      · rw [moveSnake_segment game r hlen hcap i (by omega) hi,
          moveSnake_segment game r hlen hcap j (by omega) hj] at heq
        have := hinj (i - 1) (j - 1) (by omega) (by omega) heq
        omega

theorem handleInput_snake_positions (s : GameState) (input : Char) :
    (handleInput s input).snake.positions = s.snake.positions ∧
    (handleInput s input).snake.length = s.snake.length := by
  rcases handleInput_cases s input with h | h | ⟨d, h⟩ <;> rw [h] <;> exact ⟨rfl, rfl⟩

theorem handleInput_game_over (s : GameState) (input : Char)
    (h : (handleInput s input).game_over = false) : s.game_over = false := by
  rcases handleInput_cases s input with h1 | h1 | ⟨d, h1⟩
  · rw [h1] at h
    exact h
  · rw [h1] at h
    exact Bool.noConfusion (show true = false from h)
  · rw [h1] at h
    exact h

theorem snakeIntact_congr {s1 s2 : GameState}
    (hp : s2.snake.positions = s1.snake.positions) (hl : s2.snake.length = s1.snake.length)
    (h : snakeIntact s1) : snakeIntact s2 := by
  unfold snakeIntact
  rw [hp, hl]
  exact h

/-- The invariant behind C14: the length is between 3 and 685, and while the
game is not over the snake is intact. -/
theorem running_invariant (s : GameState) (hs : ReachableVia running s) :
    3 ≤ s.snake.length ∧ s.snake.length ≤ 685 ∧ (s.game_over = false → snakeIntact s) := by
  refine reachableVia_induction running
    (fun s => 3 ≤ s.snake.length ∧ s.snake.length ≤ 685 ∧ (s.game_over = false → snakeIntact s))
    (fun s => 3 ≤ s.snake.length ∧ snakeIntact s) ?_ ?_ ?_ ?_ ?_ ?_ ?_ s hs
  · intro memory r
    obtain ⟨h1, -, -, -, p0, p1, p2⟩ := initializeGame_snake memory r
    refine ⟨by rw [h1], by rw [h1]; decide, fun _ => ?_⟩
    constructor
    · intro i hi
      rw [h1] at hi
      have hi3 : i = 0 ∨ i = 1 ∨ i = 2 := by omega
      rcases hi3 with rfl | rfl | rfl
      · rw [p0]; decide
      · rw [p1]; decide
      · rw [p2]; decide
    · intro i j hi hj heq
      rw [h1] at hi hj
      have hi3 : i = 0 ∨ i = 1 ∨ i = 2 := by omega
      have hj3 : j = 0 ∨ j = 1 ∨ j = 2 := by omega
      rcases hi3 with rfl | rfl | rfl <;> rcases hj3 with rfl | rfl | rfl <;>
        first
          | rfl
          | (simp only [p0, p1, p2] at heq; exact absurd heq (by decide))
  · intro s input ⟨h1, h2, h3⟩
    obtain ⟨hp, hl⟩ := handleInput_snake_positions s input
    refine ⟨by rw [hl]; exact h1, by rw [hl]; exact h2, fun hgo => ?_⟩
    exact snakeIntact_congr hp hl (h3 (handleInput_game_over s input hgo))
  · intro s ⟨h1, _, h3⟩ hg
    exact ⟨h1, h3 hg⟩
  · intro s input ⟨h1, h2⟩
    obtain ⟨hp, hl⟩ := handleInput_snake_positions s input
    exact ⟨by rw [hl]; exact h1, snakeIntact_congr hp hl h2⟩
  · intro s r ⟨h1, _, _⟩ ⟨_, hsafe⟩
    obtain ⟨m1, m2, m3⟩ := moveSnake_intact s r (by omega) hsafe
    have := snakeIntact_length_le s hsafe
    exact ⟨by omega, by omega, m3⟩
  · intro s h
    exact h
  · intro s h
    exact h

/-- C14: in every state reachable from `initializeGame` by `handleInput` with
any key and `moveSnake` with any draw, the latter applied only while
`game_over` is false, `1 ≤ snake.length ≤ WIDTH * HEIGHT = 800`; the index
`length - 1` read by `moveSnake` and the index of its growth write, the
incremented length minus 1, are inside the array `positions`. -/
theorem reachable_length_in_array (s : GameState) (hs : ReachableVia running s) :
    1 ≤ s.snake.length ∧ s.snake.length ≤ ((WIDTH * HEIGHT : Nat) : Int) ∧
    ((WIDTH * HEIGHT : Nat) : Int) = 800 ∧
    (0 ≤ wrapInt (s.snake.length - 1) ∧
      wrapInt (s.snake.length - 1) < ((WIDTH * HEIGHT : Nat) : Int)) ∧
    (0 ≤ wrapInt (wrapInt (s.snake.length + 1) - 1) ∧
      wrapInt (wrapInt (s.snake.length + 1) - 1) < ((WIDTH * HEIGHT : Nat) : Int)) := by
  obtain ⟨h1, h2, -⟩ := running_invariant s hs
  rw [width_height_cap]
  have hw1 : wrapInt (s.snake.length - 1) = s.snake.length - 1 :=
    wrapInt_of_range (by omega) (by omega)
  have hw2 : wrapInt (s.snake.length + 1) = s.snake.length + 1 :=
    wrapInt_of_range (by omega) (by omega)
  have hw3 : wrapInt (s.snake.length + 1 - 1) = s.snake.length :=
    (wrapInt_of_range (by omega) (by omega)).trans (by omega)
  rw [hw1, hw2, hw3]
  omega

/-- Witness of C14: the state after `initializeGame` and one move. -/
theorem reachable_length_in_array_witness :
    1 ≤ (moveSnake (initializeGame startGame 0) 0).snake.length ∧
    (moveSnake (initializeGame startGame 0) 0).snake.length ≤ ((WIDTH * HEIGHT : Nat) : Int) :=
  have h := reachable_length_in_array _
    (ReachableVia.move _ 0 (ReachableVia.init startGame 0)
      (initializeGame_fields startGame 0).1)
  ⟨h.1, h.2.1⟩

/-! ## The food stays off the snake (C16) -/

theorem generateFood_food_cases (game : GameState) (r : Nat) :
    (generateFood game r).food = game.food ∨ (generateFood game r).food ∈ emptyCells game := by
  by_cases h : emptyCells game = []
  · left
    unfold generateFood
    simp only [h, List.length_nil, gt_iff_lt, lt_self_iff_false, if_false]
  · exact Or.inr (generateFood_food_mem game r h)

theorem isInterior_of_mem_emptyCells (game : GameState) (p : Position)
    (h : p ∈ emptyCells game) : isInterior p := by
  obtain ⟨x, y, h1, h2, h3, h4, rfl, -⟩ := (mem_emptyCells game p).1 h
  simp only [WIDTH, HEIGHT] at h2 h4
  have hW : ((WIDTH : Nat) : Int) = 40 := rfl
  have hH : ((HEIGHT : Nat) : Int) = 20 := rfl
  unfold isInterior
  rw [hW, hH]
  dsimp only
  omega

theorem generateFood_food_interior (game : GameState) (r : Nat) (h : isInterior game.food) :
    isInterior (generateFood game r).food := by
  rcases generateFood_food_cases game r with h1 | h1
  · rw [h1]; exact h
  · exact isInterior_of_mem_emptyCells game _ h1

/-- With fewer than 684 segments `generateFood` finds a free cell: the new
food is strictly inside the border ring and on no segment. -/
theorem generateFood_fresh (game : GameState) (r : Nat) (h : game.snake.length < 684) :
    isInterior (generateFood game r).food ∧
    ∀ i : Nat, (i : Int) < game.snake.length →
      game.snake.positions i ≠ (generateFood game r).food := by
  obtain ⟨x0, y0, hx1, hx2, hy1, hy2, hfree0⟩ := exists_free_cell game h
  have hne : emptyCells game ≠ [] :=
    List.ne_nil_of_mem ((mem_emptyCells game _).2 ⟨x0, y0, hx1, hx2, hy1, hy2, rfl, hfree0⟩)
  have hmem := generateFood_food_mem game r hne
  refine ⟨isInterior_of_mem_emptyCells game _ hmem, ?_⟩
  obtain ⟨x, y, -, -, -, -, hp, hcell⟩ := (mem_emptyCells game _).1 hmem
  rw [hp]
  exact hcell

theorem initializeGame_eq (memory : GameState) (r : Nat) :
    ∃ g : GameState, initializeGame memory r = updateGameState (generateFood g r) ∧
      g.snake.length = 3 := by
  unfold initializeGame
  exact ⟨_, rfl, rfl⟩

theorem eatFood_eq (game : GameState) (t : Position) (r : Nat) :
    ∃ sped : GameState, eatFood game t r = generateFood sped r ∧ sped.food = game.food := by
  unfold eatFood
  refine ⟨_, rfl, ?_⟩
  simp only
  split <;> rfl

/-- The invariant behind C16: the food is strictly inside the border ring,
and while the snake has fewer than 684 segments it is on none of them. -/
theorem food_invariant (s : GameState) (hs : ReachableVia always s) :
    isInterior s.food ∧
    (s.snake.length < 684 →
      ∀ i : Nat, (i : Int) < s.snake.length → s.snake.positions i ≠ s.food) := by
  refine reachableVia_induction always
    (fun s => isInterior s.food ∧
      (s.snake.length < 684 →
        ∀ i : Nat, (i : Int) < s.snake.length → s.snake.positions i ≠ s.food))
    (fun _ => True) ?_ ?_ ?_ ?_ ?_ ?_ ?_ s hs
  · intro memory r
    obtain ⟨g, hg, hl⟩ := initializeGame_eq memory r
    rw [hg]
    obtain ⟨f1, f2⟩ := generateFood_fresh g r (by rw [hl]; decide)
    refine ⟨f1, fun _ i hi => ?_⟩
    have hi2 : (i : Int) < (generateFood g r).snake.length := hi
    rw [generateFood_snake] at hi2
    show (generateFood g r).snake.positions i ≠ _
    rw [generateFood_snake]
    exact f2 i hi2
  · intro s input ⟨h1, h2⟩
    obtain ⟨hp, hl⟩ := handleInput_snake_positions s input
    have hf : (handleInput s input).food = s.food := by
      rcases handleInput_cases s input with h | h | ⟨d, h⟩ <;> rw [h]
    rw [hf, hp, hl]
    exact ⟨h1, h2⟩
  · intro _ _ _
    trivial
  · intro _ _ _
    trivial
  · intro s r ⟨h1, h2⟩ _
    rw [moveSnake_eq]
    by_cases hate : (advanceSnake s).snake.positions 0 = s.food
    · rw [if_pos hate]
      obtain ⟨sped, hsped, hfood⟩ := eatFood_eq (advanceSnake s)
        (s.snake.positions (wrapInt (s.snake.length - 1)).toNat) r
      rw [hsped]
      have hfood2 : sped.food = s.food := hfood
      constructor
      · show isInterior (generateFood sped r).food
        exact generateFood_food_interior sped r (by rw [hfood2]; exact h1)
      · intro hlt i hi
        have hlt2 : (generateFood sped r).snake.length < 684 := hlt
        have hi2 : (i : Int) < (generateFood sped r).snake.length := hi
        rw [generateFood_snake] at hlt2 hi2
        show (generateFood sped r).snake.positions i ≠ (generateFood sped r).food
        rw [generateFood_snake]
        exact (generateFood_fresh sped r hlt2).2 i hi2
    · rw [if_neg hate]
      refine ⟨h1, fun hlt i hi => ?_⟩
      have hlt2 : s.snake.length < 684 := hlt
      have hi2 : (i : Int) < s.snake.length := hi
      show (advanceSnake s).snake.positions i ≠ s.food
      by_cases h0 : i = 0
      · rw [h0]
        exact hate
      · rw [advanceSnake_body s i (by omega)]
        split
        · exact h2 hlt2 (i - 1) (by omega)
        · exact h2 hlt2 i hi2
  · intro s h
    exact h
  · intro s h
    exact h

/-- C16: in every state reachable from `initializeGame` by `handleInput` with
any key and `moveSnake` with any draw in which the snake has fewer segments
than there are interior cells, `(WIDTH - 2) * (HEIGHT - 2) = 684`, the food
is strictly inside the border ring and differs from the position of every
segment; so the write `current_grid[food.y][food.x]` of `updateGameState` is
inside the grid. -/
theorem reachable_food_off_snake (s : GameState) (hs : ReachableVia always s)
    (hlen : s.snake.length < (((WIDTH - 2) * (HEIGHT - 2) : Nat) : Int)) :
    (((WIDTH - 2) * (HEIGHT - 2) : Nat) : Int) = 684 ∧
    (1 ≤ s.food.x ∧ s.food.x ≤ (WIDTH : Int) - 2 ∧
      1 ≤ s.food.y ∧ s.food.y ≤ (HEIGHT : Int) - 2) ∧
    (∀ i : Nat, (i : Int) < s.snake.length → s.food ≠ s.snake.positions i) ∧
    (0 ≤ s.food.y ∧ s.food.y < (HEIGHT : Int) ∧ 0 ≤ s.food.x ∧ s.food.x < (WIDTH : Int)) := by
  have h684 : (((WIDTH - 2) * (HEIGHT - 2) : Nat) : Int) = 684 := rfl
  rw [h684] at hlen
  obtain ⟨h1, h2⟩ := food_invariant s hs
  have hin := h1
  unfold isInterior at hin
  have hW : ((WIDTH : Nat) : Int) = 40 := rfl
  have hH : ((HEIGHT : Nat) : Int) = 20 := rfl
  rw [hW, hH] at hin ⊢
  refine ⟨h684, hin, fun i hi heq => h2 hlen i hi heq.symm, ?_⟩
  omega

/-- Witness of C16: after `initializeGame` the food is inside the border ring
and not under the head. -/
theorem reachable_food_off_snake_witness :
    1 ≤ (initializeGame startGame 0).food.x ∧
    (initializeGame startGame 0).food ≠ (initializeGame startGame 0).snake.positions 0 :=
  have h := reachable_food_off_snake (initializeGame startGame 0) (ReachableVia.init startGame 0)
    (by rw [(initializeGame_snake startGame 0).1]; decide)
  ⟨h.2.1.1, h.2.2.1 0 (by rw [(initializeGame_snake startGame 0).1]; decide)⟩

/-! ## Bookkeeping and speed (C19, C20) -/

theorem increaseGameSpeed_frame (game : GameState) :
    (increaseGameSpeed game).base_speed_h = game.base_speed_h ∧
    (increaseGameSpeed game).base_speed_v = game.base_speed_v := ⟨rfl, rfl⟩

theorem moveSnake_base_speed (game : GameState) (r : Nat) :
    (moveSnake game r).base_speed_h = game.base_speed_h ∧
    (moveSnake game r).base_speed_v = game.base_speed_v := by
  rw [moveSnake_eq]
  split
  · unfold eatFood
    simp only
    rw [generateFood_frame]
    split <;> exact ⟨rfl, rfl⟩
  · exact ⟨rfl, rfl⟩

/-- The difficulty fields after a `moveSnake` that does not eat. -/
theorem moveSnake_miss_difficulty (game : GameState) (r : Nat)
    (hmiss : stepHead game.snake.pending_direction (game.snake.positions 0) ≠ game.food) :
    (moveSnake game r).difficulty_level = game.difficulty_level ∧
    (moveSnake game r).current_speed_h = game.current_speed_h ∧
    (moveSnake game r).current_speed_v = game.current_speed_v ∧
    (moveSnake game r).food_eaten_since_speedup = game.food_eaten_since_speedup := by
  rw [← advanceSnake_head] at hmiss
  rw [moveSnake_eq, if_neg hmiss]
  exact ⟨rfl, rfl, rfl, rfl⟩

/-- The speed-up at base interval 160: the level goes up by one and both
intervals become `max 40 (160 - 8 * level)`, for the level before. -/
theorem increaseGameSpeed_base (game : GameState)
    (hh : game.base_speed_h = 160) (hv : game.base_speed_v = 160)
    (hl1 : 1 ≤ game.difficulty_level) (hl2 : game.difficulty_level ≤ 1000) :
    (increaseGameSpeed game).difficulty_level = game.difficulty_level + 1 ∧
    (increaseGameSpeed game).current_speed_h = max 40 (160 - 8 * game.difficulty_level) ∧
    (increaseGameSpeed game).current_speed_v = max 40 (160 - 8 * game.difficulty_level) := by
  have wl : wrapInt (game.difficulty_level + 1) = game.difficulty_level + 1 :=
    wrapInt_of_range (by omega) (by omega)
  have wl1 : wrapInt (game.difficulty_level + 1 - 1) = game.difficulty_level :=
    (wrapInt_of_range (by omega) (by omega)).trans (by omega)
  have wp : wrapInt (game.difficulty_level * 5) = game.difficulty_level * 5 :=
    wrapInt_of_range (by omega) (by omega)
  have wq : wrapInt (100 - game.difficulty_level * 5) = 100 - game.difficulty_level * 5 :=
    wrapInt_of_range (by omega) (by omega)
  have wb : Int.tdiv (wrapInt (160 + 160)) 2 = 160 := by decide
  have wm : wrapInt (160 * (100 - game.difficulty_level * 5)) =
      160 * (100 - game.difficulty_level * 5) := wrapInt_of_range (by omega) (by omega)
  have hdiv : Int.tdiv (160 * (100 - game.difficulty_level * 5)) 100 =
      160 - 8 * game.difficulty_level := by
    have : 160 * (100 - game.difficulty_level * 5) = (160 - 8 * game.difficulty_level) * 100 := by
      ring
    rw [this]
    exact Int.mul_tdiv_cancel _ (by decide)
  have hspeed : (increaseGameSpeed game).current_speed_h =
      max 40 (160 - 8 * game.difficulty_level) := by
    simp only [increaseGameSpeed, SPEED_INCREASE_PERCENT, hh, hv, wl, wl1, wp, wq, wb, wm, hdiv]
    split <;> omega
  exact ⟨wl, hspeed, hspeed⟩

/-- The bookkeeping of a game: what the counters and intervals are in terms
of the length of the snake. -/
theorem bookkeeping_invariant (s : GameState) (hs : ReachableVia insideArray s) :
    3 ≤ s.snake.length ∧ s.snake.length ≤ 800 ∧
    s.score = s.snake.length - 3 ∧
    s.difficulty_level = 1 + s.score / 3 ∧
    s.food_eaten_since_speedup = s.score % 3 ∧
    s.base_speed_h = 160 ∧ s.base_speed_v = 160 ∧
    s.current_speed_h = max 40 (160 - 8 * (s.difficulty_level - 1)) ∧
    s.current_speed_v = s.current_speed_h := by
  refine reachableVia_induction insideArray
    (fun s => 3 ≤ s.snake.length ∧ s.snake.length ≤ 800 ∧
      s.score = s.snake.length - 3 ∧
      s.difficulty_level = 1 + s.score / 3 ∧
      s.food_eaten_since_speedup = s.score % 3 ∧
      s.base_speed_h = 160 ∧ s.base_speed_v = 160 ∧
      s.current_speed_h = max 40 (160 - 8 * (s.difficulty_level - 1)) ∧
      s.current_speed_v = s.current_speed_h)
    (fun s => s.snake.length < 800) ?_ ?_ ?_ ?_ ?_ ?_ ?_ s hs
  · intro memory r
    obtain ⟨f1, f2, f3, f4, f5, f6, f7, f8⟩ := initializeGame_fields memory r
    obtain ⟨l1, -⟩ := initializeGame_snake memory r
    simp only [f2, f3, f4, f5, f6, f7, f8, l1]
    decide
  · intro s input h
    have hsame : (handleInput s input).snake.length = s.snake.length ∧
        (handleInput s input).score = s.score ∧
        (handleInput s input).difficulty_level = s.difficulty_level ∧
        (handleInput s input).food_eaten_since_speedup = s.food_eaten_since_speedup ∧
        (handleInput s input).base_speed_h = s.base_speed_h ∧
        (handleInput s input).base_speed_v = s.base_speed_v ∧
        (handleInput s input).current_speed_h = s.current_speed_h ∧
        (handleInput s input).current_speed_v = s.current_speed_v := by
      rcases handleInput_cases s input with h1 | h1 | ⟨d, h1⟩ <;> rw [h1] <;>
        exact ⟨rfl, rfl, rfl, rfl, rfl, rfl, rfl, rfl⟩
    obtain ⟨e1, e2, e3, e4, e5, e6, e7, e8⟩ := hsame
    simp only [e1, e2, e3, e4, e5, e6, e7, e8]
    exact h
  · intro s _ hg
    have hg2 : s.snake.length < ((WIDTH * HEIGHT : Nat) : Int) := hg
    rw [width_height_cap] at hg2
    exact hg2
  · intro s input h
    show (handleInput s input).snake.length < 800
    rw [(handleInput_snake_positions s input).2]
    exact h
  · intro s r ⟨h1, h2, h3, h4, h5, h6, h7, h8, h9⟩ hcap
    have hcap2 : s.snake.length < 800 := hcap
    have hl := moveSnake_length s r (by omega) hcap2
    have hsc := moveSnake_score s r
    rw [advanceSnake_head] at hsc
    obtain ⟨b1, b2⟩ := moveSnake_base_speed s r
    simp only [b1, b2, h6, h7]
    by_cases hate : stepHead s.snake.pending_direction (s.snake.positions 0) = s.food
    · rw [if_pos hate] at hl hsc
      have hw : wrapInt (s.score + 1) = s.score + 1 := wrapInt_of_range (by omega) (by omega)
      rw [hw] at hsc
      have hf := moveSnake_eat_difficulty s r hate
      have hwc : wrapInt (s.food_eaten_since_speedup + 1) = s.food_eaten_since_speedup + 1 :=
        wrapInt_of_range (by omega) (by omega)
      rw [hwc] at hf
      by_cases hthree : s.food_eaten_since_speedup + 1 ≥ SPEED_INCREASE_INTERVAL
      · rw [if_pos hthree, Prod.mk.injEq, Prod.mk.injEq, Prod.mk.injEq] at hf
        obtain ⟨g1, g2, g3, g4⟩ := hf
        obtain ⟨i1, i2, i3⟩ := increaseGameSpeed_base s h6 h7 (by omega) (by omega)
        simp only [SPEED_INCREASE_INTERVAL] at hthree
        rw [hl, hsc, g1, g2, g3, g4, i1, i2, i3]
        refine ⟨by omega, by omega, by omega, by omega, by omega, trivial, trivial, ?_, rfl⟩
        congr 1
        omega
      · rw [if_neg hthree, Prod.mk.injEq, Prod.mk.injEq, Prod.mk.injEq] at hf
        obtain ⟨g1, g2, g3, g4⟩ := hf
        simp only [SPEED_INCREASE_INTERVAL] at hthree
        rw [hl, hsc, g1, g2, g3, g4]
        exact ⟨by omega, by omega, by omega, by omega, by omega, trivial, trivial, h8, h9⟩
    · rw [if_neg hate] at hl hsc
      obtain ⟨g1, g2, g3, g4⟩ := moveSnake_miss_difficulty s r hate
      rw [hl, hsc, g1, g2, g3, g4]
      exact ⟨h1, h2, h3, h4, h5, trivial, trivial, h8, h9⟩
  · intro s h
    exact h
  · intro s h
    exact h

/-- The states of the loop of `main`, where `moveSnake` runs only while the
game is not over, are reached with every growth write inside the array. -/
theorem reachableVia_running_insideArray (s : GameState) (hs : ReachableVia running s) :
    ReachableVia insideArray s := by
  have hguard : ∀ g : GameState, ReachableVia running g → insideArray g := by
    intro g hg
    have := (running_invariant g hg).2.1
    unfold insideArray
    rw [width_height_cap]
    omega
  induction hs with
  | init memory r => exact ReachableVia.init memory r
  | input s input _ ih => exact ReachableVia.input s input ih
  | move s r hs _ ih => exact ReachableVia.move s r ih (hguard s hs)
  | update s _ ih => exact ReachableVia.update s ih
  | render s force _ ih => exact ReachableVia.render s force ih
  | iteration s last key now r hs _ ih =>
    exact ReachableVia.iteration s last key now r ih (hguard s hs)

/-- C20: in every state reachable from `initializeGame` by `handleInput` with
any key and `moveSnake` with any draw (applied while the growth write stays
inside the array), the bookkeeping agrees with the score: `score` is
`snake.length - INITIAL_SNAKE_LENGTH`, `difficulty_level` is `1 + score / 3`
and `food_eaten_since_speedup` is `score mod 3`, with the truncating division
and remainder of C on a score that is never negative. -/
theorem reachable_bookkeeping (s : GameState) (hs : ReachableVia insideArray s) :
    s.score = s.snake.length - INITIAL_SNAKE_LENGTH ∧
    0 ≤ s.score ∧
    s.difficulty_level = 1 + Int.tdiv s.score 3 ∧
    s.food_eaten_since_speedup = Int.tmod s.score 3 := by
  obtain ⟨h1, -, h3, h4, h5, -⟩ := bookkeeping_invariant s hs
  have h0 : 0 ≤ s.score := by omega
  rw [Int.tdiv_eq_ediv h0 (by decide), Int.tmod_eq_emod h0 (by decide)]
  exact ⟨h3, h0, h4, h5⟩

/-- Witness of C20: the state after `initializeGame` and one move. -/
theorem reachable_bookkeeping_witness :
    (moveSnake (initializeGame startGame 0) 0).score =
      (moveSnake (initializeGame startGame 0) 0).snake.length - INITIAL_SNAKE_LENGTH :=
  (reachable_bookkeeping _
    (ReachableVia.move _ 0 (ReachableVia.init startGame 0)
      (show (initializeGame startGame 0).snake.length < ((WIDTH * HEIGHT : Nat) : Int) by
        rw [(initializeGame_snake startGame 0).1]; decide))).1

/-- C19: in every state reachable from `initializeGame` by `handleInput` with
any key and `moveSnake` with any draw (applied while the growth write stays
inside the array), the two tick intervals are equal and lie between 40 and
160, and a `moveSnake` never increases the interval.  A `moveSnake` speeds
the game up exactly when the moved head is on the food and two food items
were eaten since the last speed-up: then the level goes up by one and the
interval goes down by 8, strictly, until it reaches the floor of 40, where
it stays; every other `moveSnake` leaves level and interval as they are. -/
theorem reachable_speed (s : GameState) (hs : ReachableVia insideArray s) :
    s.current_speed_h = s.current_speed_v ∧
    40 ≤ s.current_speed_h ∧ s.current_speed_h ≤ 160 ∧
    (insideArray s → ∀ r : Nat,
      (moveSnake s r).current_speed_h ≤ s.current_speed_h ∧
      (stepHead s.snake.pending_direction (s.snake.positions 0) = s.food →
        s.food_eaten_since_speedup = 2 →
          (moveSnake s r).difficulty_level = s.difficulty_level + 1 ∧
          (moveSnake s r).current_speed_h = max 40 (s.current_speed_h - 8) ∧
          (moveSnake s r).current_speed_v = max 40 (s.current_speed_h - 8) ∧
          ((moveSnake s r).current_speed_h < s.current_speed_h ∨
            (s.current_speed_h = 40 ∧ (moveSnake s r).current_speed_h = 40))) ∧
      (¬ (stepHead s.snake.pending_direction (s.snake.positions 0) = s.food ∧
          s.food_eaten_since_speedup = 2) →
        (moveSnake s r).difficulty_level = s.difficulty_level ∧
        (moveSnake s r).current_speed_h = s.current_speed_h ∧
        (moveSnake s r).current_speed_v = s.current_speed_v) ∧
      ((moveSnake s r).difficulty_level ≠ s.difficulty_level →
        (moveSnake s r).current_speed_h < s.current_speed_h ∨
          (s.current_speed_h = 40 ∧ (moveSnake s r).current_speed_h = 40)) ∧
      (s.current_speed_h = 40 → (moveSnake s r).current_speed_h = 40)) := by
  obtain ⟨h1, h2, h3, h4, h5, -, -, h8, h9⟩ := bookkeeping_invariant s hs
  refine ⟨h9.symm, by omega, by omega, fun hg r => ?_⟩
  obtain ⟨m1, m2, m3, m4, m5, -, -, m8, m9⟩ :=
    bookkeeping_invariant (moveSnake s r) (ReachableVia.move s r hs hg)
  have hg2 : s.snake.length < ((WIDTH * HEIGHT : Nat) : Int) := hg
  rw [width_height_cap] at hg2
  have hl := moveSnake_length s r (by omega) hg2
  have hlen : (moveSnake s r).snake.length = s.snake.length ∨
      (moveSnake s r).snake.length = s.snake.length + 1 := by
    rw [hl]
    split
    · exact Or.inr rfl
    · exact Or.inl rfl
  refine ⟨by omega, ?_, ?_, by omega, by omega⟩
  · intro hate hc
    rw [if_pos hate] at hl
    refine ⟨by omega, by omega, by omega, by omega⟩
  · intro hno
    by_cases hate : stepHead s.snake.pending_direction (s.snake.positions 0) = s.food
    · have hc : s.food_eaten_since_speedup ≠ 2 := fun hc => hno ⟨hate, hc⟩
      rw [if_pos hate] at hl
      refine ⟨by omega, by omega, by omega⟩
    · rw [if_neg hate] at hl
      refine ⟨by omega, by omega, by omega⟩

theorem emptyCells_congr {g1 g2 : GameState} (h : g1.snake = g2.snake) :
    emptyCells g1 = emptyCells g2 := by
  unfold emptyCells scanRow cellIsEmpty
  rw [h]

/-- The draw `drawFor` makes `generateFood` choose the cell it is for. -/
theorem generateFood_drawFor (game shown : GameState) (p : Position)
    (hsnake : game.snake = shown.snake) (hp : p ∈ emptyCells shown) :
    (generateFood game (drawFor shown p)).food = p := by
  have hcells : emptyCells game = emptyCells shown := emptyCells_congr hsnake
  have hlt : (emptyCells shown).indexOf p < (emptyCells shown).length :=
    List.indexOf_lt_length.2 hp
  unfold generateFood drawFor
  simp only [hcells, gt_iff_lt]
  rw [if_pos (by omega), Nat.mod_eq_of_lt hlt, List.getD_eq_getElem _ _ hlt]
  exact List.getElem_indexOf hlt

/-- The cell right in front of a snake in row 10 is free. -/
theorem rowSnake_free_ahead (g : GameState) (head_x len : Int) (h : rowSnake g head_x len)
    (x : Nat) (hx : (x : Int) = head_x + 1) (hx1 : 1 ≤ x) (hx2 : x ≤ WIDTH - 2) :
    (⟨(x : Int), ((10 : Nat) : Int)⟩ : Position) ∈ emptyCells g := by
  obtain ⟨hl, -, hpos⟩ := h
  refine (mem_emptyCells g _).2 ⟨x, 10, hx1, hx2, by decide, by decide, rfl, ?_⟩
  intro i hi heq
  rw [hl] at hi
  rw [hpos i hi, position_eq_iff] at heq
  have h1 : head_x - (i : Int) = (x : Int) := heq.1
  omega

/-- A snake in row 10 with the food right in front of it eats it and is one
segment longer, whatever the draw. -/
theorem rowSnake_eat (s : GameState) (head_x len : Int) (h : rowSnake s head_x len)
    (hlen : 1 ≤ len) (hcap : len < 800) (hx : 0 ≤ head_x ∧ head_x < 1000)
    (hfood : s.food = ⟨head_x + 1, 10⟩) (r : Nat) :
    stepHead s.snake.pending_direction (s.snake.positions 0) = s.food ∧
    rowSnake (moveSnake s r) (head_x + 1) (len + 1) := by
  obtain ⟨hl, hd, hpos⟩ := h
  have hstep : stepHead s.snake.pending_direction (s.snake.positions 0) = s.food := by
    rw [hd, hpos 0 (by omega), hfood]
    show (⟨wrapInt (head_x - ((0 : Nat) : Int) + 1), 10⟩ : Position) = _
    rw [wrapInt_of_range (by omega) (by omega)]
    congr 1
    omega
  have hl2 : (moveSnake s r).snake.length = len + 1 := by
    rw [moveSnake_length s r (by omega) (by omega), if_pos hstep, hl]
  refine ⟨hstep, hl2, ?_, ?_⟩
  · rw [(moveSnake_direction s r).2, hd]
  · intro i hi
    by_cases h0 : i = 0
    · subst h0
      rw [moveSnake_head s r (by omega) (by omega), hstep, hfood]
      congr 1
      omega
    · rw [moveSnake_segment s r (by omega) (by omega) i (by omega) (by omega),
        hpos (i - 1) (by omega)]
      congr 1
      omega

/-- The food after a move that eats, for the draw that selects `p`. -/
theorem moveSnake_drawFor (s : GameState) (p : Position)
    (hate : stepHead s.snake.pending_direction (s.snake.positions 0) = s.food)
    (hp : p ∈ emptyCells (moveSnake s 0)) :
    (moveSnake s (drawFor (moveSnake s 0) p)).food = p := by
  rw [← advanceSnake_head] at hate
  have hsped : ∃ sped : GameState, ∀ r : Nat,
      eatFood (advanceSnake s) (s.snake.positions (wrapInt (s.snake.length - 1)).toNat) r =
        generateFood sped r := by
    unfold eatFood
    exact ⟨_, fun _ => rfl⟩
  obtain ⟨sped, hsped⟩ := hsped
  have hmove : ∀ r : Nat, moveSnake s r =
      { generateFood sped r with game_over := checkCollision (generateFood sped r) } := by
    intro r
    rw [moveSnake_eq, if_pos hate, hsped]
  have hsnake : sped.snake = (moveSnake s 0).snake := by
    rw [hmove 0]
    exact (generateFood_snake sped 0).symm
  rw [hmove (drawFor (moveSnake s 0) p)]
  exact generateFood_drawFor sped (moveSnake s 0) p hsnake hp

/-- The food after `initializeGame`, for the draw that selects `p`. -/
theorem initializeGame_drawFor (memory : GameState) (p : Position)
    (hp : p ∈ emptyCells (initializeGame memory 0)) :
    (initializeGame memory (drawFor (initializeGame memory 0) p)).food = p := by
  have hfirst : ∃ g : GameState, ∀ r : Nat,
      initializeGame memory r = updateGameState (generateFood g r) := by
    unfold initializeGame
    exact ⟨_, fun _ => rfl⟩
  obtain ⟨g, hg⟩ := hfirst
  have hsnake : g.snake = (initializeGame memory 0).snake := by
    rw [hg 0, updateGameState_snake, generateFood_snake]
  rw [hg (drawFor (initializeGame memory 0) p)]
  exact generateFood_drawFor g (initializeGame memory 0) p hsnake hp

theorem initializeGame_rowSnake (memory : GameState) (r : Nat) :
    rowSnake (initializeGame memory r) 20 3 := by
  obtain ⟨h1, -, h3, -, p0, p1, p2⟩ := initializeGame_snake memory r
  refine ⟨h1, h3, fun i hi => ?_⟩
  have hi3 : i = 0 ∨ i = 1 ∨ i = 2 := by omega
  rcases hi3 with rfl | rfl | rfl
  · rw [p0]; rfl
  · rw [p1]; rfl
  · rw [p2]; rfl

/-- The state `firstFoodGame`: the snake of the start and the food at
`(21, 10)`. -/
theorem firstFoodGame_facts :
    rowSnake firstFoodGame 20 3 ∧ firstFoodGame.food = ⟨21, 10⟩ :=
  ⟨initializeGame_rowSnake startGame _,
    initializeGame_drawFor startGame ⟨21, 10⟩
      (rowSnake_free_ahead _ 20 3 (initializeGame_rowSnake startGame 0) 21 rfl (by decide)
        (by decide))⟩

/-- The state `oneFoodGame`: four segments, head at `(21, 10)`, food at
`(22, 10)`. -/
theorem oneFoodGame_facts :
    rowSnake oneFoodGame 21 4 ∧ oneFoodGame.food = ⟨22, 10⟩ := by
  obtain ⟨h1, h2⟩ := firstFoodGame_facts
  have hstep := fun r => rowSnake_eat firstFoodGame 20 3 h1 (by decide) (by decide)
    (by decide) h2 r
  exact ⟨(hstep _).2,
    moveSnake_drawFor firstFoodGame ⟨22, 10⟩ (hstep 0).1
      (rowSnake_free_ahead _ 21 4 (hstep 0).2 22 rfl (by decide) (by decide))⟩

/-- The state `twoFoodGame`: five segments, head at `(22, 10)`, food at
`(23, 10)`, right in front of the head. -/
theorem twoFoodGame_facts :
    rowSnake twoFoodGame 22 5 ∧ twoFoodGame.food = ⟨23, 10⟩ := by
  obtain ⟨h1, h2⟩ := oneFoodGame_facts
  have hstep := fun r => rowSnake_eat oneFoodGame 21 4 h1 (by decide) (by decide)
    (by decide) h2 r
  exact ⟨(hstep _).2,
    moveSnake_drawFor oneFoodGame ⟨23, 10⟩ (hstep 0).1
      (rowSnake_free_ahead _ 22 5 (hstep 0).2 23 rfl (by decide) (by decide))⟩

theorem insideArray_of_length {s : GameState} {len : Int} (h : s.snake.length = len)
    (hlen : len < 800) : insideArray s := by
  unfold insideArray
  rw [width_height_cap, h]
  exact hlen

theorem twoFoodGame_reachable : ReachableVia insideArray twoFoodGame :=
  ReachableVia.move _ _
    (ReachableVia.move _ _ (ReachableVia.init startGame _)
      (insideArray_of_length firstFoodGame_facts.1.1 (by decide)))
    (insideArray_of_length oneFoodGame_facts.1.1 (by decide))

/-- Witness of C19: the third food of a game, eaten at level 1 and interval
160, gives level 2 and interval 152. -/
theorem reachable_speed_witness :
    (moveSnake twoFoodGame 0).difficulty_level = 2 ∧
    (moveSnake twoFoodGame 0).current_speed_h = 152 ∧
    (moveSnake twoFoodGame 0).current_speed_v = 152 := by
  obtain ⟨hrow, hfood⟩ := twoFoodGame_facts
  obtain ⟨-, -, b3, b4, b5, -, -, b8, -⟩ := bookkeeping_invariant twoFoodGame twoFoodGame_reachable
  have hate := (rowSnake_eat twoFoodGame 22 5 hrow (by decide) (by decide) (by decide) hfood 0).1
  have hlen : twoFoodGame.snake.length = 5 := hrow.1
  have hcount : twoFoodGame.food_eaten_since_speedup = 2 := by omega
  have hlevel : twoFoodGame.difficulty_level = 1 := by omega
  have hspeed : twoFoodGame.current_speed_h = 160 := by
    rw [b8, hlevel]
    rfl
  have h := ((reachable_speed twoFoodGame twoFoodGame_reachable).2.2.2
    (insideArray_of_length hlen (by decide)) 0).2.1 hate hcount
  obtain ⟨h1, h2, h3, -⟩ := h
  rw [hlevel] at h1
  rw [hspeed] at h2 h3
  exact ⟨h1, h2, h3⟩

end SnakeGame
